import Mathlib

/-!
The buffering and output state machine of jcrusher-transform

A shallow embedding of `jcrusher-transform.c`.  The Traffic Server API and the
json-c library are outside the repository, so

* json-c is a parameter (`JsonC`): the tokener, its error code and the
  serializer;
* what the Traffic Server API *returns* during one invocation is an input
  (`UpstreamVIO`), and every API call the plugin *makes* is appended to a log
  (`Call`), oldest first;
* a failed `sdk_assert` / NULL dereference is the result `none`.

Bytes are natural numbers; a `const char *` is the list of bytes found in
memory from the pointer onwards.
-/

namespace JCrusher

/-! ## External vocabulary -/

/-- Values of the json-c enumeration of the same name. -/
inductive json_tokener_error where
  | json_tokener_success
  | json_tokener_continue
  | json_tokener_error_depth
  | json_tokener_error_parse_eof
  | json_tokener_error_parse_unexpected
  | json_tokener_error_parse_null
  | json_tokener_error_parse_boolean
  | json_tokener_error_parse_number
  | json_tokener_error_parse_array
  | json_tokener_error_parse_object_key_name
  | json_tokener_error_parse_object_key_sep
  | json_tokener_error_parse_object_value_sep
  | json_tokener_error_parse_string
  | json_tokener_error_parse_comment
  | json_tokener_error_size
  deriving DecidableEq, Repr

open json_tokener_error

/-- Events the host can hand to the transformation. -/
inductive TSEvent where
  | TS_EVENT_ERROR
  | TS_EVENT_VCONN_WRITE_COMPLETE
  | TS_EVENT_VCONN_WRITE_READY
  | TS_EVENT_IMMEDIATE
  | TS_EVENT_OTHER (code : Nat)
  deriving DecidableEq, Repr

open TSEvent

/-- The part of json-c the plugin uses, over tokener states `Tok` and parsed
values `Obj`.  `json_tokener_parse_ex tok bytes` is given exactly the bytes the
plugin passes (pointer and length) and returns the new tokener state together
with the returned object pointer (`none` is NULL).  The serializer is called
with flag `JSON_C_TO_STRING_PLAIN` and yields the memory at the returned
pointer. -/
structure JsonC (Tok Obj : Type) where
  json_tokener_new : Tok
  json_tokener_parse_ex : Tok → List Nat → Tok × Option Obj
  json_tokener_get_error : Tok → json_tokener_error
  json_object_to_json_string_ext : Option Obj → List Nat

/-- Every call the plugin makes into the Traffic Server API or json-c that has
an effect outside `JCrusherData`.  `TSContCall ev` is always addressed to the
continuation of the upstream write VIO. -/
inductive Call where
  | TSIOBufferCreate
  | TSIOBufferReaderAlloc
  | json_tokener_parse_ex (input : List Nat)
  | TSContCall (event : TSEvent)
  | TSIOBufferReaderConsume (nbytes : Int)
  | TSVIONDoneSet (ndone : Int)
  | TSIOBufferWrite (bytes : List Nat)
  | TSVConnWrite (nbytes : Int) (offered : List Nat)
  | TSVConnShutdown
  | TSIOBufferDestroy
  | json_object_put
  | json_tokener_free
  | TSfree
  | TSContDestroy
  deriving DecidableEq, Repr

/-- The block returned by `TSIOBufferReaderStart`, as seen through
`TSIOBufferBlockReadStart`: the number of readable bytes it stores into its
third argument, and the memory at the pointer it returns (the readable bytes
followed by whatever lies behind them). -/
structure TSIOBufferBlock where
  read_avail : Int
  mem : List Nat
  deriving DecidableEq, Repr

/-- What the upstream write VIO (`TSVConnWriteVIOGet`) answers during one
invocation. -/
structure UpstreamVIO where
  /-- result of `TSVIOBufferGet` is non-NULL -/
  buffer : Bool
  /-- result of `TSVIONTodoGet` -/
  ntodo : Int
  /-- result of `TSVIONDoneGet` -/
  ndone : Int
  /-- result of `TSIOBufferReaderAvail` on `TSVIOReaderGet` -/
  reader_avail : Int
  /-- result of `TSIOBufferReaderStart` (`none` is NULL) -/
  block : Option TSIOBufferBlock
  deriving DecidableEq, Repr

/-- The VIO returned by `TSVConnWrite`. -/
structure DownstreamVIO where
  nbytes : Int
  deriving DecidableEq, Repr

/-- The value an `int64_t` holds after two's-complement wrap-around. -/
def int64_wrap (x : Int) : Int :=
  (x + 9223372036854775808) % 18446744073709551616 - 9223372036854775808

/-- C `strlen`: the number of bytes before the first zero byte. -/
def strlen (s : List Nat) : Nat := (s.takeWhile (fun b => b != 0)).length

/-- Source call `TSIOBufferBlockReadStart (blk, reader, &avail)`: the pointer
returned and the value left in `avail`, which is the readable size of the block
whatever `avail` held before the call. -/
def TSIOBufferBlockReadStart (blk : TSIOBufferBlock) (_avail : Int) : List Nat × Int :=
  (blk.mem, blk.read_avail)

/-! ## The session record -/

def STATE_BUFFER_DATA : Int := 0
def STATE_OUTPUT_DATA : Int := 1

/-- The struct of the same name.  `downstream_buffer` holds the bytes written
into the IO buffer, `downstream_reader` the number of bytes its reader has
already passed.  `txn` is left out: nothing in the state machine reads it. -/
structure JCrusherData (Tok Obj : Type) where
  state : Int
  downstream_vio : Option DownstreamVIO
  downstream_buffer : Option (List Nat)
  downstream_reader : Option Nat
  json_err : json_tokener_error
  json_obj : Option Obj
  json_tok : Option Tok
  deriving DecidableEq, Repr

variable {Tok Obj : Type}

/-- Source function `jcrusher_data_alloc`.  The source leaves `json_err` uninitialised; it is
never read, so the value chosen here is immaterial. -/
def jcrusher_data_alloc (J : JsonC Tok Obj) : JCrusherData Tok Obj :=
  { state := STATE_BUFFER_DATA
    downstream_vio := none
    downstream_buffer := none
    downstream_reader := none
    json_err := json_tokener_success
    json_obj := none
    json_tok := some J.json_tokener_new }

/-- Source function `jcrusher_data_destroy`: the calls it makes.  The record itself is freed, so
nothing is returned for it. -/
def jcrusher_data_destroy (data : Option (JCrusherData Tok Obj)) : List Call :=
  match data with
  | none => []
  | some d =>
    (if d.downstream_buffer.isSome then [Call.TSIOBufferDestroy] else [])
    ++ (if d.json_obj.isSome then [Call.json_object_put] else [])
    ++ (if d.json_tok.isSome then [Call.json_tokener_free] else [])
    ++ [Call.TSfree]

/-- Source function `handle_buffering`: the return value, the updated record and
the calls made.  `TSIOBufferBlockReadStart` on a NULL block and
`json_tokener_parse_ex` on a NULL tokener abort.  The length passed to the
tokener is `strlen (input)`; the length consumed and accounted is `toread` as
`TSIOBufferBlockReadStart` left it; the sum handed to `TSVIONDoneSet` is an
`int64_t`. -/
def handle_buffering (J : JsonC Tok Obj) (up : UpstreamVIO) (data : JCrusherData Tok Obj) :
    Option (Int × JCrusherData Tok Obj × List Call) :=
  -- create the output buffer and its reader
  let data1 : JCrusherData Tok Obj :=
    if data.downstream_buffer.isSome then data
    else { data with downstream_buffer := some [], downstream_reader := some 0 }
  let cs1 : List Call :=
    if data.downstream_buffer.isSome then []
    else [Call.TSIOBufferCreate, Call.TSIOBufferReaderAlloc]
  if !up.buffer then
    some (0, { data1 with state := STATE_OUTPUT_DATA }, cs1)
  else
    let toread := up.ntodo
    if toread > 0 then
      let avail := up.reader_avail
      let toread := if toread > avail then avail else toread
      match up.block with
      | none => none
      | some blk =>
        let rs := TSIOBufferBlockReadStart blk toread
        let input := rs.1
        let toread := rs.2
        match data1.json_tok with
        | none => none
        | some tok =>
          let fed := input.take (strlen input)
          let r := J.json_tokener_parse_ex tok fed
          let err := J.json_tokener_get_error r.1
          let data2 : JCrusherData Tok Obj :=
            { data1 with json_obj := r.2, json_tok := some r.1, json_err := err }
          if json_tokener_success = err then
            some (1, { data2 with state := STATE_OUTPUT_DATA },
              cs1 ++ [Call.json_tokener_parse_ex fed,
                      Call.TSContCall TS_EVENT_VCONN_WRITE_COMPLETE])
          else
            some (1, data2,
              cs1 ++ [Call.json_tokener_parse_ex fed,
                      Call.TSIOBufferReaderConsume toread,
                      Call.TSVIONDoneSet (int64_wrap (up.ndone + toread)),
                      Call.TSContCall TS_EVENT_VCONN_WRITE_READY])
    else
      some (1, { data1 with state := STATE_OUTPUT_DATA },
        cs1 ++ [Call.TSContCall TS_EVENT_VCONN_WRITE_COMPLETE])

/-- Source function `handle_output`: the return value, the updated record and
the calls made.  `TSIOBufferWrite` on an absent buffer and
`TSIOBufferReaderAvail` on an absent reader abort. -/
def handle_output (J : JsonC Tok Obj) (data : JCrusherData Tok Obj) :
    Option (Int × JCrusherData Tok Obj × List Call) :=
  match data.downstream_vio with
  | some _ => some (1, data, [])
  | none =>
    let output := J.json_object_to_json_string_ext data.json_obj
    match data.downstream_buffer with
    | none => none
    | some buf =>
      let bytes := output.take (strlen output)
      let buf1 := buf ++ bytes
      match data.downstream_reader with
      | none => none
      | some pos =>
        let avail : Int := (buf1.length : Int) - (pos : Int)
        some (1, { data with downstream_buffer := some buf1,
                             downstream_vio := some { nbytes := avail } },
          [Call.TSIOBufferWrite bytes, Call.TSVConnWrite avail (buf1.drop pos)])

/-- The body of the `switch` in `jcrusher_handle_transform`. -/
def switch_state (J : JsonC Tok Obj) (up : UpstreamVIO) (data : JCrusherData Tok Obj) :
    Option (Int × JCrusherData Tok Obj × List Call) :=
  if data.state = STATE_BUFFER_DATA then handle_buffering J up data
  else if data.state = STATE_OUTPUT_DATA then handle_output J data
  else some (1, data, [])

/-- The `do ... while (!done)` loop of `jcrusher_handle_transform`. -/
def transform_loop (J : JsonC Tok Obj) (up : UpstreamVIO) (data : JCrusherData Tok Obj) :
    Option (JCrusherData Tok Obj × List Call) :=
  match h : switch_state J up data with
  | none => none
  | some (done, d1, cs) =>
    if hd : done = 0 then
      match transform_loop J up d1 with
      | none => none
      | some (d2, cs2) => some (d2, cs ++ cs2)
    else some (d1, cs)
termination_by (if data.state = STATE_BUFFER_DATA then 1 else 0 : Nat)
decreasing_by
  -- a step that is not done was a buffering step that moved to STATE_OUTPUT_DATA
  subst hd
  have h2 : data.state = STATE_BUFFER_DATA ∧ d1.state = STATE_OUTPUT_DATA := by
    unfold switch_state at h
    split at h
    · refine ⟨by assumption, ?_⟩
      unfold handle_buffering TSIOBufferBlockReadStart at h
      simp only at h
      repeat' split at h
      all_goals first
        | (simp at h; rw [← h.1])
        | (simp at h)
    · exfalso
      unfold handle_output at h
      repeat' split at h
      all_goals simp at h
  simp [h2.1, h2.2, STATE_BUFFER_DATA, STATE_OUTPUT_DATA]

/-- The continuation of the transformation: its private data pointer
(`TSContDataGet`), whether `TSContDestroy` has been called on it, and the log of
calls made so far. -/
structure TSCont (Tok Obj : Type) where
  data : Option (JCrusherData Tok Obj)
  destroyed : Bool
  calls : List Call
  deriving DecidableEq, Repr

/-- Source function `jcrusher_handle_transform`: the record is allocated if the
continuation has none, then the loop runs. -/
def jcrusher_handle_transform (J : JsonC Tok Obj) (up : UpstreamVIO) (contp : TSCont Tok Obj) :
    Option (TSCont Tok Obj) :=
  let data := match contp.data with
    | some d => d
    | none => jcrusher_data_alloc J
  match transform_loop J up data with
  | none => none
  | some (d1, cs) => some { contp with data := some d1, calls := contp.calls ++ cs }

/-- Source function `jcrusher_transform`; `closed` is the answer of
`TSVConnClosedGet`.  After the release path the record is freed and the
continuation destroyed. -/
def jcrusher_transform (J : JsonC Tok Obj) (closed : Bool) (up : UpstreamVIO)
    (contp : TSCont Tok Obj) (event : TSEvent) : Option (TSCont Tok Obj) :=
  if closed then
    some { data := none, destroyed := true,
           calls := contp.calls ++ jcrusher_data_destroy contp.data ++ [Call.TSContDestroy] }
  else
    match event with
    | TS_EVENT_ERROR =>
      some { contp with calls := contp.calls ++ [Call.TSContCall TS_EVENT_ERROR] }
    | TS_EVENT_VCONN_WRITE_COMPLETE =>
      some { contp with calls := contp.calls ++ [Call.TSVConnShutdown] }
    | TS_EVENT_VCONN_WRITE_READY => jcrusher_handle_transform J up contp
    | TS_EVENT_IMMEDIATE => jcrusher_handle_transform J up contp
    | TS_EVENT_OTHER _ => jcrusher_handle_transform J up contp

/-- The continuation `jcrusher_transform_add` installs: fresh data, nothing
called yet. -/
def jcrusher_transform_add (J : JsonC Tok Obj) : TSCont Tok Obj :=
  { data := some (jcrusher_data_alloc J), destroyed := false, calls := [] }

/-! ## The host -/

/-- One delivery by the host: the event, whether the transformation has been
closed, and what the upstream VIO answers during the invocation. -/
structure Delivery where
  event : TSEvent
  closed : Bool
  up : UpstreamVIO
  deriving DecidableEq, Repr

/-- The host hands an event to the continuation; a destroyed continuation
receives nothing. -/
def dispatch (J : JsonC Tok Obj) (contp : TSCont Tok Obj) (e : Delivery) :
    Option (TSCont Tok Obj) :=
  if contp.destroyed then some contp
  else jcrusher_transform J e.closed e.up contp e.event

/-- A sequence of deliveries, stopping at an abort. -/
def run (J : JsonC Tok Obj) : TSCont Tok Obj → List Delivery → Option (TSCont Tok Obj)
  | contp, [] => some contp
  | contp, e :: es =>
    match dispatch J contp e with
    | none => none
    | some c1 => run J c1 es

/-- The loop of `jcrusher_handle_transform` cut off after a number of passes
through the `switch`: the outer `none` says the bound was reached before `done`,
`some none` says a pass aborted. -/
def transform_loop_bounded (J : JsonC Tok Obj) (up : UpstreamVIO) :
    Nat → JCrusherData Tok Obj → Option (Option (JCrusherData Tok Obj × List Call))
  | 0, _ => none
  | n + 1, data =>
    match switch_state J up data with
    | none => some none
    | some (done, d1, cs) =>
      if done = 0 then
        match transform_loop_bounded J up n d1 with
        | none => none
        | some none => some none
        | some (some (d2, cs2)) => some (some (d2, cs ++ cs2))
      else some (some (d1, cs))

/-! ## The eligibility check -/

/-- What a response header answers: `TSHttpHdrStatusGet`, and for the
Content-Type field `TSMimeHdrFieldFind` (`none` is a NULL location) with
`TSMimeHdrFieldValueStringGet` at index 0 (`none` is NULL, else the memory at
the returned pointer). -/
structure RespHdr where
  status : Int
  content_type : Option (Option (List Nat))
  deriving DecidableEq, Repr

/-- The transaction as far as the check reads it: the header of the server
response and the header of the cached response. -/
structure TSHttpTxn where
  server_resp : RespHdr
  cached_resp : RespHdr
  deriving DecidableEq, Repr

/-- C `tolower` on ASCII. -/
def tolower (c : Nat) : Nat := if 65 ≤ c ∧ c ≤ 90 then c + 32 else c

/-- C `strncasecmp`: at most `n` characters are compared, ignoring case, and
the comparison stops at a zero byte.  The end of a list reads as a zero
byte. -/
def strncasecmp (s1 s2 : List Nat) : Nat → Int
  | 0 => 0
  | n + 1 =>
    if tolower (s1.headD 0) ≠ tolower (s2.headD 0) then
      (tolower (s1.headD 0) : Int) - (tolower (s2.headD 0) : Int)
    else if tolower (s1.headD 0) = 0 then 0
    else strncasecmp s1.tail s2.tail n

/-- The 16 characters of the text application/json. -/
def application_json : List Nat :=
  [97, 112, 112, 108, 105, 99, 97, 116, 105, 111, 110, 47, 106, 115, 111, 110]

/-- Source function `jcrusher_transformable`. -/
def jcrusher_transformable (txnp : TSHttpTxn) (server : Int) : Int :=
  let hdr := if server ≠ 0 then txnp.server_resp else txnp.cached_resp
  let resp_status := hdr.status
  if ¬ (resp_status = 200) then 0
  else
    let retv : Int := 0
    match hdr.content_type with
    | none => retv
    | some none => 0
    | some (some value) =>
      if strncasecmp value (application_json ++ [0]) application_json.length = 0 then 1
      else 0

/-- The media type a Content-Type value names, read from the words of the
specification: the characters before the first `;`, blank, tab, line end or
zero byte, in lower case. -/
def media_type (value : List Nat) : List Nat :=
  (value.takeWhile
    (fun c => c != 59 && c != 32 && c != 9 && c != 13 && c != 10 && c != 0)).map tolower

/-! ## Observations on the call log and on runs -/

/-- Calls that take input from the source or answer it about input: feeding the
tokener, consuming from the source reader, accounting bytes, and
`TS_EVENT_VCONN_WRITE_READY` / `TS_EVENT_VCONN_WRITE_COMPLETE` to the source's
continuation. -/
def Call.isInput : Call → Bool
  | Call.json_tokener_parse_ex _ => true
  | Call.TSIOBufferReaderConsume _ => true
  | Call.TSVIONDoneSet _ => true
  | Call.TSContCall TS_EVENT_VCONN_WRITE_READY => true
  | Call.TSContCall TS_EVENT_VCONN_WRITE_COMPLETE => true
  | _ => false

/-- Calls of the release path. -/
def Call.isRelease : Call → Bool
  | Call.TSIOBufferDestroy => true
  | Call.json_object_put => true
  | Call.json_tokener_free => true
  | Call.TSfree => true
  | Call.TSContDestroy => true
  | _ => false

def Call.isVConnWrite : Call → Bool
  | Call.TSVConnWrite _ _ => true
  | _ => false

/-- Number of `TSVConnWrite` calls in a log. -/
def writes (cs : List Call) : Nat := cs.countP Call.isVConnWrite

/-- The bytes of the C string the serializer returns for the parsed value. -/
def serialization (J : JsonC Tok Obj) (o : Option Obj) : List Nat :=
  (J.json_object_to_json_string_ext o).take (strlen (J.json_object_to_json_string_ext o))

/-- The value of `state` after each delivery of a run, for as long as the
record exists and nothing aborted. -/
def states (J : JsonC Tok Obj) : TSCont Tok Obj → List Delivery → List Int
  | _, [] => []
  | contp, e :: es =>
    match dispatch J contp e with
    | none => []
    | some c1 =>
      (match c1.data with
        | some d => [d.state]
        | none => []) ++ states J c1 es

/-- The value of `state` before a run and after each of its deliveries. -/
def history (J : JsonC Tok Obj) (contp : TSCont Tok Obj) (es : List Delivery) : List Int :=
  (match contp.data with
    | some d => [d.state]
    | none => []) ++ states J contp es

/-- Two successive values of `state`: unchanged, or the step from
`STATE_BUFFER_DATA` to `STATE_OUTPUT_DATA`. -/
def one_way (a b : Int) : Prop :=
  a = b ∨ (a = STATE_BUFFER_DATA ∧ b = STATE_OUTPUT_DATA)

/-- How often a list of states steps from `a` directly to `b`. -/
def changes (a b : Int) : List Int → Nat
  | x :: y :: rest => (if x = a ∧ y = b then 1 else 0) + changes a b (y :: rest)
  | _ => 0

/-- What holds of the record and the log at every point of a run that starts
from `jcrusher_transform_add`: while no downstream VIO exists nothing has been
written downstream or into the output buffer; an output buffer comes with its
reader at position zero; in `STATE_OUTPUT_DATA` the output buffer exists; a
downstream VIO exists only in `STATE_OUTPUT_DATA`; the tokener exists. -/
def DataInv (d : JCrusherData Tok Obj) (calls : List Call) : Prop :=
  (d.downstream_vio = none →
    writes calls = 0 ∧ (d.downstream_buffer = none ∨ d.downstream_buffer = some [])) ∧
  (d.downstream_buffer ≠ none → d.downstream_reader = some 0) ∧
  (d.state = STATE_OUTPUT_DATA → d.downstream_buffer ≠ none) ∧
  (d.downstream_vio ≠ none → d.state = STATE_OUTPUT_DATA) ∧
  d.json_tok ≠ none

/-- The predicate `DataInv` for the record of a continuation, together with: at most one
downstream write so far, and the record is only missing once the continuation
is destroyed. -/
def Inv (c : TSCont Tok Obj) : Prop :=
  writes c.calls ≤ 1 ∧
  (c.data = none → c.destroyed = true) ∧
  ∀ d, c.data = some d → DataInv d c.calls

/-! ## A small stand-in for json-c

Used only to run the state machine on concrete inputs.  It recognises nested
brackets: blanks are skipped, a value is complete when the outermost bracket
closes, and a closing bracket at depth zero or directly after `:` or `,` is a
parse error.  The parsed value is the list of non-blank bytes. -/

structure ToyTok where
  depth : Nat
  last : Nat
  acc : List Nat
  err : json_tokener_error
  deriving DecidableEq, Repr

def toy_step (t : ToyTok) (b : Nat) : ToyTok :=
  if t.err ≠ json_tokener_continue then t
  else if b = 32 ∨ b = 10 ∨ b = 13 ∨ b = 9 then t
  else if b = 123 ∨ b = 91 then
    { depth := t.depth + 1, last := b, acc := t.acc ++ [b], err := json_tokener_continue }
  else if b = 125 ∨ b = 93 then
    if t.depth = 0 ∨ t.last = 58 ∨ t.last = 44 then
      { t with err := json_tokener_error_parse_unexpected }
    else
      { depth := t.depth - 1, last := b, acc := t.acc ++ [b],
        err := if t.depth = 1 then json_tokener_success else json_tokener_continue }
  else { t with last := b, acc := t.acc ++ [b] }

def toy_parse_ex (t : ToyTok) (input : List Nat) : ToyTok × Option (List Nat) :=
  let t0 : ToyTok :=
    if t.err = json_tokener_success then
      { depth := 0, last := 0, acc := [], err := json_tokener_continue }
    else { t with err := json_tokener_continue }
  let t1 := input.foldl toy_step t0
  (t1, if t1.err = json_tokener_success then some t1.acc else none)

/-- The text `null` for a NULL object, else the bytes of the value; both
terminated by a zero byte. -/
def toy_to_json_string (o : Option (List Nat)) : List Nat :=
  match o with
  | none => [110, 117, 108, 108, 0]
  | some v => v ++ [0]

def toyJson : JsonC ToyTok (List Nat) :=
  { json_tokener_new := { depth := 0, last := 0, acc := [], err := json_tokener_success }
    json_tokener_parse_ex := toy_parse_ex
    json_tokener_get_error := fun t => t.err
    json_object_to_json_string_ext := toy_to_json_string }

/-- An upstream VIO holding `bytes` in one block, followed in memory by a zero
byte, with `ntodo` bytes still announced and `ndone` accounted. -/
def chunk (bytes : List Nat) (ntodo ndone : Int) : UpstreamVIO :=
  { buffer := true, ntodo := ntodo, ndone := ndone, reader_avail := bytes.length,
    block := some { read_avail := bytes.length, mem := bytes ++ [0] } }

/-- An upstream VIO with a buffer but no data in it. -/
def drained (ntodo ndone : Int) : UpstreamVIO :=
  { buffer := true, ntodo := ntodo, ndone := ndone, reader_avail := 0, block := none }

/-- An upstream VIO whose write operation has been shut down. -/
def shutdown (ndone : Int) : UpstreamVIO :=
  { buffer := false, ntodo := 0, ndone := ndone, reader_avail := 0, block := none }

/-- Delivery of `TS_EVENT_VCONN_WRITE_READY` to an open transformation. -/
def write_ready (u : UpstreamVIO) : Delivery :=
  { event := TS_EVENT_VCONN_WRITE_READY, closed := false, up := u }

/-- Delivery of `TS_EVENT_IMMEDIATE` to an open transformation. -/
def immediate (u : UpstreamVIO) : Delivery :=
  { event := TS_EVENT_IMMEDIATE, closed := false, up := u }

/-- The text of the object with members a = 1 and b = [2, 3], with blanks, cut
into three spans, each delivered when the previous one has been accounted. -/
def three_chunks : List Delivery :=
  [ write_ready (chunk [123, 34, 97, 34, 58, 32, 49, 44] 21 0),
    write_ready (chunk [32, 34, 98, 34, 58, 32, 91, 50, 44, 32, 51, 93] 13 8),
    write_ready (chunk [125] 1 20) ]

/-- The same text without blanks. -/
def compact_text : List Nat :=
  [123, 34, 97, 34, 58, 49, 44, 34, 98, 34, 58, 91, 50, 44, 51, 93, 125]

/-- The record after `three_chunks`. -/
def after_three_chunks : JCrusherData ToyTok (List Nat) :=
  { state := STATE_OUTPUT_DATA
    downstream_vio := none
    downstream_buffer := some []
    downstream_reader := some 0
    json_err := json_tokener_success
    json_obj := some compact_text
    json_tok := some { depth := 0, last := 125, acc := compact_text,
                       err := json_tokener_success } }

/-- The log after `three_chunks`. -/
def calls_three_chunks : List Call :=
  [ Call.TSIOBufferCreate, Call.TSIOBufferReaderAlloc,
    Call.json_tokener_parse_ex [123, 34, 97, 34, 58, 32, 49, 44],
    Call.TSIOBufferReaderConsume 8, Call.TSVIONDoneSet 8,
    Call.TSContCall TS_EVENT_VCONN_WRITE_READY,
    Call.json_tokener_parse_ex [32, 34, 98, 34, 58, 32, 91, 50, 44, 32, 51, 93],
    Call.TSIOBufferReaderConsume 12, Call.TSVIONDoneSet 20,
    Call.TSContCall TS_EVENT_VCONN_WRITE_READY,
    Call.json_tokener_parse_ex [125],
    Call.TSContCall TS_EVENT_VCONN_WRITE_COMPLETE ]

/-- The Content-Type value application/json-seq, followed in memory by the end
of the header line. -/
def json_seq_value : List Nat :=
  [97, 112, 112, 108, 105, 99, 97, 116, 105, 111, 110, 47, 106, 115, 111, 110,
   45, 115, 101, 113, 13, 10]

/-- The Content-Type value `Application/JSON; charset=utf-8`, followed in memory
by the end of the header line. -/
def json_charset_value : List Nat :=
  [65, 112, 112, 108, 105, 99, 97, 116, 105, 111, 110, 47, 74, 83, 79, 78,
   59, 32, 99, 104, 97, 114, 115, 101, 116, 61, 117, 116, 102, 45, 56, 13, 10]

/-- A transaction whose server response has the given status and Content-Type
value and whose cached response is a 404 without Content-Type. -/
def server_txn (status : Int) (value : List Nat) : TSHttpTxn :=
  { server_resp := { status := status, content_type := some (some value) }
    cached_resp := { status := 404, content_type := none } }

/-- The state and the log of a continuation, for reading off the result of a
run. -/
def observe (r : Option (TSCont Tok Obj)) : Option (Option Int × List Call) :=
  r.map (fun c => (c.data.map (fun d => d.state), c.calls))

end JCrusher

namespace JCrusher

open json_tokener_error TSEvent

variable {Tok Obj : Type}

/-! ## Single steps -/

theorem handle_output_some (J : JsonC Tok Obj) (d d1 : JCrusherData Tok Obj) (r : Int)
    (cs : List Call) (h : handle_output J d = some (r, d1, cs)) :
    r = 1 ∧ d1.state = d.state ∧ d1.json_obj = d.json_obj ∧ d1.json_tok = d.json_tok ∧
      d1.downstream_reader = d.downstream_reader ∧ d1.downstream_vio ≠ none ∧
      (d.downstream_buffer ≠ none → d1.downstream_buffer ≠ none) ∧
      (d.downstream_vio ≠ none → d1 = d ∧ cs = []) ∧
      (d.downstream_vio = none → writes cs = 1) := by
  unfold handle_output at h
  repeat' split at h
  all_goals simp at h
  all_goals obtain ⟨h1, h2, h3⟩ := h
  all_goals subst h1 h2 h3
  all_goals simp_all [writes, Call.isVConnWrite]

theorem handle_buffering_some (J : JsonC Tok Obj) (up : UpstreamVIO)
    (d d1 : JCrusherData Tok Obj) (r : Int) (cs : List Call)
    (h : handle_buffering J up d = some (r, d1, cs)) :
    (r = 0 → d1.state = STATE_OUTPUT_DATA) ∧
      (d1.state = d.state ∨ d1.state = STATE_OUTPUT_DATA) ∧
      d1.downstream_vio = d.downstream_vio ∧
      d1.downstream_buffer = some (d.downstream_buffer.getD []) ∧
      (d.downstream_buffer = none → d1.downstream_reader = some 0) ∧
      (d.downstream_buffer ≠ none → d1.downstream_reader = d.downstream_reader) ∧
      writes cs = 0 ∧ (d.json_tok ≠ none → d1.json_tok ≠ none) := by
  unfold handle_buffering TSIOBufferBlockReadStart at h
  simp only at h
  cases hb : d.downstream_buffer
  all_goals simp only [hb, Option.isSome_none, Option.isSome_some, if_true] at h
  all_goals repeat' split at h
  all_goals simp at h
  all_goals obtain ⟨h1, h2, h3⟩ := h
  all_goals subst h1 h2 h3
  all_goals simp_all [writes, Call.isVConnWrite]

/-- The loop runs the switch once, and once more when the first pass was a
buffering step that asked for the output step. -/
theorem transform_loop_eq (J : JsonC Tok Obj) (up : UpstreamVIO) (d : JCrusherData Tok Obj) :
    transform_loop J up d =
      match switch_state J up d with
      | none => none
      | some (done, d1, cs) =>
        if done = 0 then
          match handle_output J d1 with
          | none => none
          | some (_, d2, cs2) => some (d2, cs ++ cs2)
        else some (d1, cs) := by
  rw [transform_loop]
  split
  · rename_i h; simp [h]
  · rename_i done d1 cs h
    simp only [h]
    by_cases hd : done = 0
    · subst hd
      have hs : d.state = STATE_BUFFER_DATA := by
        unfold switch_state at h
        split at h
        · assumption
        · exfalso
          split at h
          · exact absurd (handle_output_some J d d1 0 cs h).1 (by decide)
          · simp at h
      have h1 : d1.state = STATE_OUTPUT_DATA := by
        unfold switch_state at h
        rw [if_pos hs] at h
        exact (handle_buffering_some J up d d1 0 cs h).1 rfl
      have hsw : switch_state J up d1 = handle_output J d1 := by
        unfold switch_state
        rw [if_neg (by rw [h1]; decide), if_pos h1]
      rw [transform_loop, hsw]
      cases h2 : handle_output J d1 with
      | none => simp [hsw, h2]
      | some r =>
        obtain ⟨done2, d2, cs2⟩ := r
        have := (handle_output_some J d1 d2 done2 cs2 h2).1
        subst this
        simp [hsw, h2]
    · simp [hd]

/-- The ways one pass through the loop can end. -/
theorem transform_loop_some (J : JsonC Tok Obj) (up : UpstreamVIO)
    (d d2 : JCrusherData Tok Obj) (cs : List Call)
    (h : transform_loop J up d = some (d2, cs)) :
    (d.state = STATE_BUFFER_DATA ∧ ∃ r, r ≠ 0 ∧ handle_buffering J up d = some (r, d2, cs)) ∨
    (d.state = STATE_BUFFER_DATA ∧ ∃ d1 cs1 r2 cs2, handle_buffering J up d = some (0, d1, cs1) ∧
      handle_output J d1 = some (r2, d2, cs2) ∧ cs = cs1 ++ cs2) ∨
    (d.state = STATE_OUTPUT_DATA ∧ ∃ r, handle_output J d = some (r, d2, cs)) ∨
    (d.state ≠ STATE_BUFFER_DATA ∧ d.state ≠ STATE_OUTPUT_DATA ∧ d2 = d ∧ cs = []) := by
  rw [transform_loop_eq] at h
  cases hsw : switch_state J up d with
  | none => simp [hsw] at h
  | some res =>
    obtain ⟨done, d1, cs1⟩ := res
    simp only [hsw] at h
    unfold switch_state at hsw
    by_cases hb : d.state = STATE_BUFFER_DATA
    · rw [if_pos hb] at hsw
      by_cases hd : done = 0
      · subst hd
        simp only [if_true] at h
        cases ho : handle_output J d1 with
        | none => simp [ho] at h
        | some r =>
          obtain ⟨r2, d3, cs2⟩ := r
          simp only [ho, Option.some.injEq, Prod.mk.injEq] at h
          obtain ⟨h1, h2⟩ := h
          subst h1 h2
          exact Or.inr (Or.inl ⟨hb, d1, cs1, r2, cs2, hsw, ho, rfl⟩)
      · simp only [if_neg hd, Option.some.injEq, Prod.mk.injEq] at h
        obtain ⟨h1, h2⟩ := h
        subst h1 h2
        exact Or.inl ⟨hb, done, hd, hsw⟩
    · rw [if_neg hb] at hsw
      by_cases ho : d.state = STATE_OUTPUT_DATA
      · rw [if_pos ho] at hsw
        have hd : done ≠ 0 := by
          rw [(handle_output_some J d d1 done cs1 hsw).1]; decide
        simp only [if_neg hd, Option.some.injEq, Prod.mk.injEq] at h
        obtain ⟨h1, h2⟩ := h
        subst h1 h2
        exact Or.inr (Or.inr (Or.inl ⟨ho, done, hsw⟩))
      · rw [if_neg ho] at hsw
        simp only [Option.some.injEq, Prod.mk.injEq] at hsw
        obtain ⟨h1, h2, h3⟩ := hsw
        subst h1 h2 h3
        simp only [show ¬ ((1 : Int) = 0) by decide, if_false, Option.some.injEq,
          Prod.mk.injEq] at h
        obtain ⟨h1, h2⟩ := h
        subst h1 h2
        exact Or.inr (Or.inr (Or.inr ⟨hb, ho, rfl, rfl⟩))

/-! ## Deliveries -/

theorem writes_append (a b : List Call) : writes (a ++ b) = writes a + writes b := by
  simp [writes, List.countP_append]

theorem writes_nil : writes [] = 0 := rfl

theorem writes_cons (a : Call) (l : List Call) :
    writes (a :: l) = (if a.isVConnWrite = true then 1 else 0) + writes l := by
  simp only [writes, List.countP_cons]
  exact Nat.add_comm _ _

theorem writes_destroy (data : Option (JCrusherData Tok Obj)) :
    writes (jcrusher_data_destroy data) = 0 := by
  cases data with
  | none => rfl
  | some d =>
    simp only [jcrusher_data_destroy]
    split_ifs <;> rfl

theorem jcrusher_handle_transform_some (J : JsonC Tok Obj) (up : UpstreamVIO)
    (c c1 : TSCont Tok Obj) (h : jcrusher_handle_transform J up c = some c1) :
    ∃ d2 cs, transform_loop J up (match c.data with
        | some d => d
        | none => jcrusher_data_alloc J) = some (d2, cs) ∧
      c1 = { c with data := some d2, calls := c.calls ++ cs } := by
  unfold jcrusher_handle_transform at h
  simp only at h
  split at h
  · simp at h
  · rename_i d2 cs heq
    simp only [Option.some.injEq] at h
    exact ⟨d2, cs, heq, h.symm⟩

/-- The ways a delivery can end. -/
theorem dispatch_some (J : JsonC Tok Obj) (c c1 : TSCont Tok Obj) (e : Delivery)
    (h : dispatch J c e = some c1) :
    (c.destroyed = true ∧ c1 = c) ∨
    (c.destroyed = false ∧ e.closed = true ∧
      c1 = { data := none, destroyed := true,
             calls := c.calls ++ jcrusher_data_destroy c.data ++ [Call.TSContDestroy] }) ∨
    (c.destroyed = false ∧ e.closed = false ∧ e.event = TS_EVENT_ERROR ∧
      c1 = { c with calls := c.calls ++ [Call.TSContCall TS_EVENT_ERROR] }) ∨
    (c.destroyed = false ∧ e.closed = false ∧ e.event = TS_EVENT_VCONN_WRITE_COMPLETE ∧
      c1 = { c with calls := c.calls ++ [Call.TSVConnShutdown] }) ∨
    (c.destroyed = false ∧ e.closed = false ∧ e.event ≠ TS_EVENT_ERROR ∧
      e.event ≠ TS_EVENT_VCONN_WRITE_COMPLETE ∧ jcrusher_handle_transform J e.up c = some c1) := by
  unfold dispatch at h
  by_cases hd : c.destroyed = true
  · rw [if_pos hd] at h
    simp only [Option.some.injEq] at h
    exact Or.inl ⟨hd, h.symm⟩
  · rw [if_neg hd] at h
    have hd2 : c.destroyed = false := by simpa using hd
    unfold jcrusher_transform at h
    by_cases hc : e.closed = true
    · rw [if_pos hc] at h
      simp only [Option.some.injEq] at h
      exact Or.inr (Or.inl ⟨hd2, hc, h.symm⟩)
    · rw [if_neg hc] at h
      have hc2 : e.closed = false := by simpa using hc
      cases hev : e.event <;> simp only [hev] at h
      · simp only [Option.some.injEq] at h
        exact Or.inr (Or.inr (Or.inl ⟨hd2, hc2, rfl, h.symm⟩))
      · simp only [Option.some.injEq] at h
        exact Or.inr (Or.inr (Or.inr (Or.inl ⟨hd2, hc2, rfl, h.symm⟩)))
      · exact Or.inr (Or.inr (Or.inr (Or.inr ⟨hd2, hc2, by simp, by simp, h⟩)))
      · exact Or.inr (Or.inr (Or.inr (Or.inr ⟨hd2, hc2, by simp, by simp, h⟩)))
      · exact Or.inr (Or.inr (Or.inr (Or.inr ⟨hd2, hc2, by simp, by simp, h⟩)))

/-! ## The invariant of reachable sessions -/

theorem dataInv_alloc (J : JsonC Tok Obj) : DataInv (jcrusher_data_alloc J) [] := by
  simp [DataInv, jcrusher_data_alloc, writes, STATE_BUFFER_DATA, STATE_OUTPUT_DATA]

theorem dataInv_buffering (J : JsonC Tok Obj) (up : UpstreamVIO) (d d1 : JCrusherData Tok Obj)
    (r : Int) (cs0 cs : List Call) (hi : DataInv d cs0)
    (h : handle_buffering J up d = some (r, d1, cs)) :
    DataInv d1 (cs0 ++ cs) ∧ writes (cs0 ++ cs) = writes cs0 := by
  obtain ⟨_, hst, hv, hb, hr0, hr1, hw, htok⟩ := handle_buffering_some J up d d1 r cs h
  obtain ⟨i1, i2, _, i4, i5⟩ := hi
  refine ⟨⟨?_, ?_, ?_, ?_, htok i5⟩, by rw [writes_append, hw]; rfl⟩
  · intro hn
    rw [hv] at hn
    obtain ⟨j1, j2⟩ := i1 hn
    refine ⟨by rw [writes_append, hw, j1], Or.inr ?_⟩
    rw [hb]
    rcases j2 with j | j <;> rw [j] <;> rfl
  · intro _
    cases hbuf : d.downstream_buffer with
    | none => exact hr0 hbuf
    | some b =>
      have hne : d.downstream_buffer ≠ none := by rw [hbuf]; simp
      rw [hr1 hne]; exact i2 hne
  · intro _
    rw [hb]; simp
  · intro hn
    rw [hv] at hn
    rcases hst with e | e
    · rw [e]; exact i4 hn
    · exact e

theorem dataInv_output (J : JsonC Tok Obj) (d d1 : JCrusherData Tok Obj)
    (r : Int) (cs0 cs : List Call) (hi : DataInv d cs0) (hle : writes cs0 ≤ 1)
    (hout : d.state = STATE_OUTPUT_DATA)
    (h : handle_output J d = some (r, d1, cs)) :
    DataInv d1 (cs0 ++ cs) ∧ writes (cs0 ++ cs) ≤ 1 := by
  obtain ⟨_, hs, _, htok, hrd, hv, hb, hsome, hnone⟩ := handle_output_some J d d1 r cs h
  obtain ⟨i1, i2, i3, i4, i5⟩ := hi
  by_cases hvio : d.downstream_vio = none
  · have hw := hnone hvio
    refine ⟨⟨fun hn => absurd hn hv, ?_, ?_, fun _ => by rw [hs]; exact hout,
      by rw [htok]; exact i5⟩, ?_⟩
    · intro _
      rw [hrd]
      have hbuf : d.downstream_buffer ≠ none := by
        intro hnb
        unfold handle_output at h
        simp [hvio, hnb] at h
      exact i2 hbuf
    · intro hst
      rw [hs] at hst
      exact hb (i3 hst)
    · rw [writes_append, hw, (i1 hvio).1]
  · obtain ⟨e1, e2⟩ := hsome hvio
    subst e1 e2
    simpa using ⟨⟨i1, i2, i3, i4, i5⟩, hle⟩

theorem dataInv_loop (J : JsonC Tok Obj) (up : UpstreamVIO) (d d2 : JCrusherData Tok Obj)
    (cs0 cs : List Call) (hi : DataInv d cs0) (hle : writes cs0 ≤ 1)
    (h : transform_loop J up d = some (d2, cs)) :
    DataInv d2 (cs0 ++ cs) ∧ writes (cs0 ++ cs) ≤ 1 := by
  rcases transform_loop_some J up d d2 cs h with
    ⟨_, r, _, hb⟩ | ⟨_, d1, cs1, r2, cs2, hb, ho, hcs⟩ | ⟨hst, r, ho⟩ | ⟨_, _, e1, e2⟩
  · obtain ⟨k1, k2⟩ := dataInv_buffering J up d d2 r cs0 cs hi hb
    exact ⟨k1, by rw [k2]; exact hle⟩
  · obtain ⟨k1, k2⟩ := dataInv_buffering J up d d1 0 cs0 cs1 hi hb
    subst hcs
    rw [← List.append_assoc]
    exact dataInv_output J d1 d2 r2 (cs0 ++ cs1) cs2 k1 (by rw [k2]; exact hle)
      ((handle_buffering_some J up d d1 0 cs1 hb).1 rfl) ho
  · exact dataInv_output J d d2 r cs0 cs hi hle hst ho
  · subst e1 e2
    simpa using ⟨hi, hle⟩

theorem inv_add (J : JsonC Tok Obj) : Inv (jcrusher_transform_add J) := by
  refine ⟨by simp [jcrusher_transform_add, writes], by simp [jcrusher_transform_add], ?_⟩
  intro d hd
  simp only [jcrusher_transform_add, Option.some.injEq] at hd
  subst hd
  exact dataInv_alloc J

theorem inv_dispatch (J : JsonC Tok Obj) (c c1 : TSCont Tok Obj) (e : Delivery)
    (hi : Inv c) (h : dispatch J c e = some c1) : Inv c1 := by
  obtain ⟨i1, i2, i3⟩ := hi
  rcases dispatch_some J c c1 e h with
    ⟨_, e1⟩ | ⟨_, _, e1⟩ | ⟨_, _, _, e1⟩ | ⟨_, _, _, e1⟩ | ⟨hd, _, _, _, ht⟩
  · subst e1; exact ⟨i1, i2, i3⟩
  · subst e1
    refine ⟨?_, fun _ => rfl, fun d hd => by simp at hd⟩
    simp only [writes_append, writes_destroy]
    simpa [writes, Call.isVConnWrite] using i1
  · subst e1
    have hw : writes (c.calls ++ [Call.TSContCall TS_EVENT_ERROR]) = writes c.calls := by
      simp [writes_append, writes, Call.isVConnWrite]
    refine ⟨by rw [hw]; exact i1, i2, ?_⟩
    intro d hd
    obtain ⟨j1, j2, j3⟩ := i3 d hd
    exact ⟨fun hn => ⟨by rw [hw]; exact (j1 hn).1, (j1 hn).2⟩, j2, j3⟩
  · subst e1
    have hw : writes (c.calls ++ [Call.TSVConnShutdown]) = writes c.calls := by
      simp [writes_append, writes, Call.isVConnWrite]
    refine ⟨by rw [hw]; exact i1, i2, ?_⟩
    intro d hd
    obtain ⟨j1, j2, j3⟩ := i3 d hd
    exact ⟨fun hn => ⟨by rw [hw]; exact (j1 hn).1, (j1 hn).2⟩, j2, j3⟩
  · obtain ⟨d2, cs, hl, e1⟩ := jcrusher_handle_transform_some J e.up c c1 ht
    subst e1
    cases hdata : c.data with
    | none => rw [i2 hdata] at hd; cases hd
    | some d =>
      rw [hdata] at hl
      obtain ⟨k1, k2⟩ := dataInv_loop J e.up d d2 c.calls cs (i3 d hdata) i1 hl
      refine ⟨k2, by simp, ?_⟩
      intro d3 hd3
      simp only [Option.some.injEq] at hd3
      subst hd3
      exact k1

theorem inv_run (J : JsonC Tok Obj) (es : List Delivery) (c c1 : TSCont Tok Obj)
    (hi : Inv c) (h : run J c es = some c1) : Inv c1 := by
  induction es generalizing c with
  | nil =>
    simp only [run, Option.some.injEq] at h
    subst h; exact hi
  | cons e es ih =>
    simp only [run] at h
    cases hd : dispatch J c e with
    | none => simp [hd] at h
    | some c2 =>
      simp only [hd] at h
      exact ih c2 (inv_dispatch J c c2 e hi hd) h

/-! ## Properties of the record along a run -/

/-- A property of the record that holds after allocation and is kept by both
phase steps holds at the end of every run. -/
theorem run_data_pred (J : JsonC Tok Obj) (P : JCrusherData Tok Obj → Prop)
    (halloc : P (jcrusher_data_alloc J))
    (hb : ∀ up d r d1 cs, P d → handle_buffering J up d = some (r, d1, cs) → P d1)
    (ho : ∀ d r d1 cs, P d → handle_output J d = some (r, d1, cs) → P d1)
    (es : List Delivery) (c c1 : TSCont Tok Obj) (hP : ∀ d, c.data = some d → P d)
    (h : run J c es = some c1) : ∀ d, c1.data = some d → P d := by
  induction es generalizing c with
  | nil =>
    simp only [run, Option.some.injEq] at h
    subst h; exact hP
  | cons e es ih =>
    simp only [run] at h
    cases hd : dispatch J c e with
    | none => simp [hd] at h
    | some c2 =>
      simp only [hd] at h
      refine ih c2 ?_ h
      rcases dispatch_some J c c2 e hd with
        ⟨_, e1⟩ | ⟨_, _, e1⟩ | ⟨_, _, _, e1⟩ | ⟨_, _, _, e1⟩ | ⟨_, _, _, _, ht⟩
      · subst e1; exact hP
      · subst e1; intro d hdd; simp at hdd
      · subst e1; exact hP
      · subst e1; exact hP
      · obtain ⟨d2, cs, hl, e1⟩ := jcrusher_handle_transform_some J e.up c c2 ht
        subst e1
        intro d3 hd3
        simp only [Option.some.injEq] at hd3
        subst hd3
        have hP0 : P (match c.data with
            | some d => d
            | none => jcrusher_data_alloc J) := by
          cases hdata : c.data with
          | none => exact halloc
          | some d => exact hP d hdata
        rcases transform_loop_some J e.up _ d2 cs hl with
          ⟨_, r, _, h1⟩ | ⟨_, d1, cs1, r2, cs2, h1, h2, _⟩ | ⟨_, r, h2⟩ | ⟨_, _, e1, _⟩
        · exact hb _ _ _ _ _ hP0 h1
        · exact ho _ _ _ _ (hb _ _ _ _ _ hP0 h1) h2
        · exact ho _ _ _ _ hP0 h2
        · rw [e1]; exact hP0

theorem buffering_keeps_value_in_output (J : JsonC Tok Obj)
    (hJ : ∀ t bs, (J.json_tokener_parse_ex t bs).2 ≠ none →
      J.json_tokener_get_error (J.json_tokener_parse_ex t bs).1 = json_tokener_success)
    (up : UpstreamVIO) (d d1 : JCrusherData Tok Obj) (r : Int) (cs : List Call)
    (h : handle_buffering J up d = some (r, d1, cs)) :
    d1.json_obj ≠ none → d1.state = STATE_OUTPUT_DATA := by
  unfold handle_buffering TSIOBufferBlockReadStart at h
  simp only at h
  cases hb : d.downstream_buffer
  all_goals simp only [hb, Option.isSome_none, Option.isSome_some, if_true] at h
  all_goals repeat' split at h
  all_goals simp at h
  all_goals obtain ⟨h1, h2, h3⟩ := h
  all_goals subst h1 h2 h3
  all_goals first
    | (intro _; rfl)
    | (intro hne
       have hsucc := hJ _ _ hne
       simp_all)

theorem toyJson_value_only_on_success (t : ToyTok) (bs : List Nat) :
    (toyJson.json_tokener_parse_ex t bs).2 ≠ none →
      toyJson.json_tokener_get_error (toyJson.json_tokener_parse_ex t bs).1 =
        json_tokener_success := by
  simp only [toyJson, toy_parse_ex]
  split_ifs <;> simp_all

/-! ## The sequence of states -/

theorem states_destroyed (J : JsonC Tok Obj) (es : List Delivery) (c : TSCont Tok Obj)
    (hd : c.destroyed = true) (hn : c.data = none) : states J c es = [] := by
  induction es with
  | nil => rfl
  | cons e es ih => simp [states, dispatch, hd, hn, ih]

theorem state_step (J : JsonC Tok Obj) (c c1 : TSCont Tok Obj) (e : Delivery)
    (d : JCrusherData Tok Obj) (hc : c.data = some d) (h : dispatch J c e = some c1) :
    (c1.data = none ∧ c1.destroyed = true) ∨ ∃ d1, c1.data = some d1 ∧ one_way d.state d1.state := by
  rcases dispatch_some J c c1 e h with
    ⟨_, e1⟩ | ⟨_, _, e1⟩ | ⟨_, _, _, e1⟩ | ⟨_, _, _, e1⟩ | ⟨_, _, _, _, ht⟩
  · subst e1; exact Or.inr ⟨d, hc, Or.inl rfl⟩
  · subst e1; exact Or.inl ⟨rfl, rfl⟩
  · subst e1; exact Or.inr ⟨d, hc, Or.inl rfl⟩
  · subst e1; exact Or.inr ⟨d, hc, Or.inl rfl⟩
  · obtain ⟨d2, cs, hl, e1⟩ := jcrusher_handle_transform_some J e.up c c1 ht
    subst e1
    rw [hc] at hl
    refine Or.inr ⟨d2, rfl, ?_⟩
    rcases transform_loop_some J e.up d d2 cs hl with
      ⟨hs, r, _, h1⟩ | ⟨hs, d1, cs1, r2, cs2, h1, h2, _⟩ | ⟨_, r, h2⟩ | ⟨_, _, e1, _⟩
    · rcases (handle_buffering_some J e.up d d2 r cs h1).2.1 with k | k
      · exact Or.inl k.symm
      · exact Or.inr ⟨hs, k⟩
    · have k1 := (handle_buffering_some J e.up d d1 0 cs1 h1).1 rfl
      have k2 := (handle_output_some J d1 d2 r2 cs2 h2).2.1
      exact Or.inr ⟨hs, by rw [k2]; exact k1⟩
    · exact Or.inl (handle_output_some J d d2 r cs h2).2.1.symm
    · rw [e1]; exact Or.inl rfl

theorem states_chain (J : JsonC Tok Obj) (es : List Delivery) (c : TSCont Tok Obj)
    (d : JCrusherData Tok Obj) (hc : c.data = some d) :
    List.Chain one_way d.state (states J c es) := by
  induction es generalizing c d with
  | nil => exact List.Chain.nil
  | cons e es ih =>
    simp only [states]
    cases hd : dispatch J c e with
    | none => exact List.Chain.nil
    | some c1 =>
      simp only
      rcases state_step J c c1 e d hc hd with ⟨hn, hdes⟩ | ⟨d1, h1, hr⟩
      · rw [hn, states_destroyed J es c1 hdes hn]
        exact List.Chain.nil
      · rw [h1]
        exact List.Chain.cons hr (ih c1 d1 h1)

theorem states_chain_any (J : JsonC Tok Obj) (es : List Delivery) (c : TSCont Tok Obj) :
    List.Chain' one_way (states J c es) := by
  induction es generalizing c with
  | nil => exact List.chain'_nil
  | cons e es ih =>
    simp only [states]
    cases hd : dispatch J c e with
    | none => exact List.chain'_nil
    | some c1 =>
      simp only
      cases h1 : c1.data with
      | none => simpa using ih c1
      | some d1 => exact states_chain J es c1 d1 h1

theorem history_chain (J : JsonC Tok Obj) (es : List Delivery) (c : TSCont Tok Obj) :
    List.Chain' one_way (history J c es) := by
  unfold history
  cases h : c.data with
  | none => simpa using states_chain_any J es c
  | some d => exact states_chain J es c d h

theorem changes_back_zero (l : List Int) (h : List.Chain' one_way l) :
    changes STATE_OUTPUT_DATA STATE_BUFFER_DATA l = 0 := by
  induction l with
  | nil => rfl
  | cons x l ih =>
    cases l with
    | nil => rfl
    | cons y rest =>
      rw [List.chain'_cons] at h
      simp only [changes]
      rw [ih h.2]
      have : ¬ (x = STATE_OUTPUT_DATA ∧ y = STATE_BUFFER_DATA) := by
        rintro ⟨hx, hy⟩
        rcases h.1 with k | ⟨k, _⟩
        · rw [hx, hy] at k; exact absurd k (by decide)
        · rw [hx] at k; exact absurd k (by decide)
      simp [this]

theorem changes_after_output (l : List Int) (h : List.Chain one_way STATE_OUTPUT_DATA l) :
    changes STATE_BUFFER_DATA STATE_OUTPUT_DATA (STATE_OUTPUT_DATA :: l) = 0 := by
  induction l with
  | nil => rfl
  | cons y rest ih =>
    rw [List.chain_cons] at h
    have hy : y = STATE_OUTPUT_DATA := by
      rcases h.1 with k | ⟨k, _⟩
      · exact k.symm
      · exact absurd k (by decide)
    subst hy
    simp only [changes]
    rw [ih h.2]
    simp [STATE_OUTPUT_DATA, STATE_BUFFER_DATA]

theorem changes_forward_le_one (l : List Int) (h : List.Chain' one_way l) :
    changes STATE_BUFFER_DATA STATE_OUTPUT_DATA l ≤ 1 := by
  induction l with
  | nil => simp [changes]
  | cons x l ih =>
    cases l with
    | nil => simp [changes]
    | cons y rest =>
      rw [List.chain'_cons] at h
      simp only [changes]
      by_cases hxy : x = STATE_BUFFER_DATA ∧ y = STATE_OUTPUT_DATA
      · obtain ⟨hx, hy⟩ := hxy
        subst hy
        rw [changes_after_output rest h.2, if_pos ⟨hx, rfl⟩]
      · simp only [if_neg hxy, Nat.zero_add]
        exact ih h.2

/-! ## Calls made in the output state and on the release path -/

theorem destroy_all_release (data : Option (JCrusherData Tok Obj)) :
    ∀ call ∈ jcrusher_data_destroy data ++ [Call.TSContDestroy], call.isRelease = true := by
  cases data with
  | none => simp [jcrusher_data_destroy, Call.isRelease]
  | some d =>
    obtain ⟨st, vio, buf, rd, err, obj, tok⟩ := d
    cases buf <;> cases obj <;> cases tok <;> simp [jcrusher_data_destroy, Call.isRelease]

theorem release_not_input (call : Call) (h : call.isRelease = true) : call.isInput = false := by
  cases call <;> simp_all [Call.isRelease, Call.isInput]

theorem handle_output_no_input (J : JsonC Tok Obj) (d d1 : JCrusherData Tok Obj) (r : Int)
    (cs : List Call) (h : handle_output J d = some (r, d1, cs)) :
    ∀ call ∈ cs, call.isInput = false := by
  unfold handle_output at h
  repeat' split at h
  all_goals simp at h
  all_goals obtain ⟨_, _, h3⟩ := h
  all_goals subst h3
  all_goals simp [Call.isInput]

/-- One delivery to a continuation whose record is in `STATE_OUTPUT_DATA`, or
which is destroyed: the same holds afterwards, and the calls added take no
input. -/
theorem output_state_step (J : JsonC Tok Obj) (c c1 : TSCont Tok Obj) (e : Delivery)
    (hc : (∃ d, c.data = some d ∧ d.state = STATE_OUTPUT_DATA) ∨
      (c.data = none ∧ c.destroyed = true))
    (h : dispatch J c e = some c1) :
    ((∃ d, c1.data = some d ∧ d.state = STATE_OUTPUT_DATA) ∨
      (c1.data = none ∧ c1.destroyed = true)) ∧
    ∃ cs, c1.calls = c.calls ++ cs ∧ ∀ call ∈ cs, call.isInput = false := by
  rcases dispatch_some J c c1 e h with
    ⟨_, e1⟩ | ⟨_, _, e1⟩ | ⟨_, _, _, e1⟩ | ⟨_, _, _, e1⟩ | ⟨hd, _, _, _, ht⟩
  · subst e1
    exact ⟨hc, [], by simp, by simp⟩
  · subst e1
    refine ⟨Or.inr ⟨rfl, rfl⟩, jcrusher_data_destroy c.data ++ [Call.TSContDestroy],
      by simp, ?_⟩
    intro call hmem
    exact release_not_input call (destroy_all_release c.data call hmem)
  · subst e1
    exact ⟨hc, [Call.TSContCall TS_EVENT_ERROR], rfl, by simp [Call.isInput]⟩
  · subst e1
    exact ⟨hc, [Call.TSVConnShutdown], rfl, by simp [Call.isInput]⟩
  · obtain ⟨d2, cs, hl, e1⟩ := jcrusher_handle_transform_some J e.up c c1 ht
    subst e1
    rcases hc with ⟨d, hdat, hst⟩ | ⟨_, hdes⟩
    · rw [hdat] at hl
      have hnb : d.state ≠ STATE_BUFFER_DATA := by rw [hst]; decide
      rcases transform_loop_some J e.up d d2 cs hl with
        ⟨hs, _⟩ | ⟨hs, _⟩ | ⟨_, r, h2⟩ | ⟨_, hno, _, _⟩
      · exact absurd hs hnb
      · exact absurd hs hnb
      · refine ⟨Or.inl ⟨d2, rfl, ?_⟩, cs, rfl, handle_output_no_input J d d2 r cs h2⟩
        rw [(handle_output_some J d d2 r cs h2).2.1]; exact hst
      · exact absurd hst hno
    · rw [hdes] at hd; cases hd

/-! ## The bounded loop -/

theorem switch_state_after_not_done (J : JsonC Tok Obj) (up : UpstreamVIO)
    (d d1 : JCrusherData Tok Obj) (cs : List Call)
    (h : switch_state J up d = some (0, d1, cs)) :
    switch_state J up d1 = handle_output J d1 := by
  have hs : d.state = STATE_BUFFER_DATA := by
    unfold switch_state at h
    split at h
    · assumption
    · exfalso
      split at h
      · exact absurd (handle_output_some J d d1 0 cs h).1 (by decide)
      · simp at h
  have h1 : d1.state = STATE_OUTPUT_DATA := by
    unfold switch_state at h
    rw [if_pos hs] at h
    exact (handle_buffering_some J up d d1 0 cs h).1 rfl
  unfold switch_state
  rw [if_neg (by rw [h1]; decide), if_pos h1]

theorem transform_loop_bounded_two (J : JsonC Tok Obj) (up : UpstreamVIO)
    (d : JCrusherData Tok Obj) :
    transform_loop_bounded J up 2 d = some (transform_loop J up d) := by
  rw [transform_loop_eq]
  simp only [transform_loop_bounded]
  cases hsw : switch_state J up d with
  | none => rfl
  | some res =>
    obtain ⟨done, d1, cs⟩ := res
    simp only
    by_cases hd : done = 0
    · subst hd
      simp only [if_true]
      rw [switch_state_after_not_done J up d d1 cs hsw]
      cases ho : handle_output J d1 with
      | none => rfl
      | some r2 =>
        obtain ⟨done2, d2, cs2⟩ := r2
        have h1 := (handle_output_some J d1 d2 done2 cs2 ho).1
        subst h1
        simp
    · simp [hd]

/-! ## The comparison of the content type -/

theorem tolower_zero : tolower 0 = 0 := by decide

/-- Against a text of lower-case, non-zero characters, `strncasecmp` over the
length of the text answers 0 exactly when the first characters of the other
string, in lower case, are the text. -/
theorem strncasecmp_eq_zero (l : List Nat) (hl : ∀ ch ∈ l, tolower ch = ch ∧ ch ≠ 0)
    (s rest : List Nat) :
    strncasecmp s (l ++ rest) l.length = 0 ↔ (s.take l.length).map tolower = l := by
  induction l generalizing s with
  | nil => simp [strncasecmp]
  | cons x l ih =>
    have hx := hl x (List.mem_cons_self x l)
    have hl2 : ∀ ch ∈ l, tolower ch = ch ∧ ch ≠ 0 :=
      fun ch hch => hl ch (List.mem_cons_of_mem x hch)
    simp only [List.length_cons, strncasecmp, List.cons_append, List.headD_cons,
      List.tail_cons, hx.1]
    cases s with
    | nil =>
      have : ¬ (0 : Nat) = x := fun h => hx.2 h.symm
      simp only [List.headD_nil, tolower_zero, ne_eq, this, not_false_eq_true, if_true]
      simp only [List.take_nil, List.map_nil]
      constructor
      · intro h
        exfalso
        have hx0 : (x : Int) = 0 := by omega
        exact hx.2 (by exact_mod_cast hx0)
      · intro h; cases h
    | cons a s =>
      simp only [List.headD_cons, List.tail_cons, List.take_succ_cons, List.map_cons,
        List.cons.injEq]
      by_cases hax : tolower a = x
      · simp only [hax, ne_eq, not_true_eq_false, if_false, true_and, hx.2]
        exact ih hl2 s
      · simp only [ne_eq, hax, not_false_eq_true, if_true, false_and, iff_false]
        intro h
        apply hax
        have : (tolower a : Int) = (x : Int) := by omega
        exact_mod_cast this

theorem application_json_lower :
    ∀ ch ∈ application_json, tolower ch = ch ∧ ch ≠ 0 := by
  decide

/-! ## The accounted-bytes sum -/

/-- Inside the range of `int64_t` the sum is the sum; at the upper end it wraps:
with nDone at the largest `int64_t` and a span of one byte, `TSVIONDoneSet`
receives the smallest. -/
theorem ndone_sum_is_int64 :
    int64_wrap (8 + 12) = 20 ∧
    (handle_buffering toyJson
        { buffer := true, ntodo := 1, ndone := 9223372036854775807, reader_avail := 1,
          block := some { read_avail := 1, mem := [123, 0] } }
        (jcrusher_data_alloc toyJson)).map (fun r => r.2.2) =
      some [Call.TSIOBufferCreate, Call.TSIOBufferReaderAlloc,
         Call.json_tokener_parse_ex [123],
         Call.TSIOBufferReaderConsume 1, Call.TSVIONDoneSet (-9223372036854775808),
         Call.TSContCall TS_EVENT_VCONN_WRITE_READY] := by
  decide

/-! ## Claims -/

/-- C1 (the code departs from the claim).  The text `{"a": }` arrives as one
span of 7 bytes and the tokener reports `json_tokener_error_parse_unexpected`.
`handle_buffering` takes the branch it logs as "got json_tokener_continue":
it consumes the span, advances nDone and signals `TS_EVENT_VCONN_WRITE_READY`;
no `TS_EVENT_ERROR` is signalled.  When the source then reports nothing left,
the state becomes `STATE_OUTPUT_DATA`, and the next event makes `handle_output`
write the text `null` and call `TSVConnWrite`. -/
theorem parse_error_treated_as_continue :
    toyJson.json_tokener_get_error
        (toyJson.json_tokener_parse_ex toyJson.json_tokener_new
          [123, 34, 97, 34, 58, 32, 125]).1 = json_tokener_error_parse_unexpected ∧
    observe (run toyJson (jcrusher_transform_add toyJson)
        [write_ready (chunk [123, 34, 97, 34, 58, 32, 125] 7 0)]) =
      some (some STATE_BUFFER_DATA,
        [Call.TSIOBufferCreate, Call.TSIOBufferReaderAlloc,
         Call.json_tokener_parse_ex [123, 34, 97, 34, 58, 32, 125],
         Call.TSIOBufferReaderConsume 7, Call.TSVIONDoneSet 7,
         Call.TSContCall TS_EVENT_VCONN_WRITE_READY]) ∧
    observe (run toyJson (jcrusher_transform_add toyJson)
        [write_ready (chunk [123, 34, 97, 34, 58, 32, 125] 7 0),
         write_ready (drained 0 7), immediate (drained 0 7)]) =
      some (some STATE_OUTPUT_DATA,
        [Call.TSIOBufferCreate, Call.TSIOBufferReaderAlloc,
         Call.json_tokener_parse_ex [123, 34, 97, 34, 58, 32, 125],
         Call.TSIOBufferReaderConsume 7, Call.TSVIONDoneSet 7,
         Call.TSContCall TS_EVENT_VCONN_WRITE_READY,
         Call.TSContCall TS_EVENT_VCONN_WRITE_COMPLETE,
         Call.TSIOBufferWrite [110, 117, 108, 108],
         Call.TSVConnWrite 4 [110, 117, 108, 108]]) := by
  refine ⟨by decide, ?_, ?_⟩
  · simp only [observe, run, dispatch, jcrusher_transform, jcrusher_handle_transform,
      transform_loop_eq, write_ready, jcrusher_transform_add]
    decide
  · simp only [observe, run, dispatch, jcrusher_transform, jcrusher_handle_transform,
      transform_loop_eq, write_ready, immediate, jcrusher_transform_add]
    decide

/-- C2, as stated, fails: after the span `{"a":` has left the tokener waiting for
more, the source reports nothing left to do with its buffer still present; the
session enters `STATE_OUTPUT_DATA`, and the following event makes
`handle_output` serialize the absent value and write it downstream. -/
theorem early_shutdown_enters_output :
    observe (run toyJson (jcrusher_transform_add toyJson)
        [write_ready (chunk [123, 34, 97, 34, 58] 5 0), write_ready (drained 0 5)]) =
      some (some STATE_OUTPUT_DATA,
        [Call.TSIOBufferCreate, Call.TSIOBufferReaderAlloc,
         Call.json_tokener_parse_ex [123, 34, 97, 34, 58],
         Call.TSIOBufferReaderConsume 5, Call.TSVIONDoneSet 5,
         Call.TSContCall TS_EVENT_VCONN_WRITE_READY,
         Call.TSContCall TS_EVENT_VCONN_WRITE_COMPLETE]) ∧
    observe (run toyJson (jcrusher_transform_add toyJson)
        [write_ready (chunk [123, 34, 97, 34, 58] 5 0), write_ready (drained 0 5),
         write_ready (drained 0 5)]) =
      some (some STATE_OUTPUT_DATA,
        [Call.TSIOBufferCreate, Call.TSIOBufferReaderAlloc,
         Call.json_tokener_parse_ex [123, 34, 97, 34, 58],
         Call.TSIOBufferReaderConsume 5, Call.TSVIONDoneSet 5,
         Call.TSContCall TS_EVENT_VCONN_WRITE_READY,
         Call.TSContCall TS_EVENT_VCONN_WRITE_COMPLETE,
         Call.TSIOBufferWrite [110, 117, 108, 108],
         Call.TSVConnWrite 4 [110, 117, 108, 108]]) := by
  constructor
  · simp only [observe, run, dispatch, jcrusher_transform, jcrusher_handle_transform,
      transform_loop_eq, write_ready, jcrusher_transform_add]
    decide
  · simp only [observe, run, dispatch, jcrusher_transform, jcrusher_handle_transform,
      transform_loop_eq, write_ready, jcrusher_transform_add]
    decide

/-- C2 (amended).  In the buffering state with no parsed value, when the source
reports nothing left to do and its buffer is present, `jcrusher_handle_transform`
treats this as the end of the input: the state becomes `STATE_OUTPUT_DATA`, the
parsed value stays absent, the only calls are the creation of the output buffer
(if it did not exist) and one `TS_EVENT_VCONN_WRITE_COMPLETE` to the source's
continuation; no error event and no downstream write in this invocation. -/
theorem end_of_input_moves_to_output (J : JsonC Tok Obj) (up : UpstreamVIO)
    (c : TSCont Tok Obj) (d : JCrusherData Tok Obj) (hc : c.data = some d)
    (hs : d.state = STATE_BUFFER_DATA) (hobj : d.json_obj = none)
    (hbuf : up.buffer = true) (h0 : up.ntodo = 0) :
    ∃ d1, jcrusher_handle_transform J up c =
        some { c with
          data := some d1
          calls := c.calls ++ ((if d.downstream_buffer.isSome then []
              else [Call.TSIOBufferCreate, Call.TSIOBufferReaderAlloc]) ++
            [Call.TSContCall TS_EVENT_VCONN_WRITE_COMPLETE]) } ∧
      d1.state = STATE_OUTPUT_DATA ∧ d1.json_obj = none ∧
      d1.downstream_vio = d.downstream_vio := by
  unfold jcrusher_handle_transform
  simp only [hc, transform_loop_eq, switch_state, hs, if_true, handle_buffering, hbuf, h0]
  cases hb : d.downstream_buffer <;>
    simp [hobj, STATE_OUTPUT_DATA, STATE_BUFFER_DATA]

theorem end_of_input_moves_to_output_witness :
    ∃ d1, jcrusher_handle_transform toyJson (drained 0 0) (jcrusher_transform_add toyJson) =
        some { jcrusher_transform_add toyJson with
          data := some d1
          calls := (jcrusher_transform_add toyJson).calls ++
            ((if (jcrusher_data_alloc toyJson).downstream_buffer.isSome then []
              else [Call.TSIOBufferCreate, Call.TSIOBufferReaderAlloc]) ++
            [Call.TSContCall TS_EVENT_VCONN_WRITE_COMPLETE]) } ∧
      d1.state = STATE_OUTPUT_DATA ∧ d1.json_obj = none ∧
      d1.downstream_vio = (jcrusher_data_alloc toyJson).downstream_vio :=
  end_of_input_moves_to_output toyJson (drained 0 0) (jcrusher_transform_add toyJson)
    (jcrusher_data_alloc toyJson) rfl rfl rfl rfl rfl

/-- C3 (the code departs from the claim).  The span `{}` of 2 bytes completes a
value: `handle_buffering` sets `STATE_OUTPUT_DATA`, signals
`TS_EVENT_VCONN_WRITE_COMPLETE` once and no `TS_EVENT_VCONN_WRITE_READY`, and
returns 1 - without any `TSIOBufferReaderConsume`: the `return` comes before the
lines that consume the span. -/
theorem complete_value_not_consumed :
    (handle_buffering toyJson (chunk [123, 125] 2 0) (jcrusher_data_alloc toyJson)).map
        (fun r => (r.1, r.2.1.state, r.2.1.json_obj, r.2.2)) =
      some (1, STATE_OUTPUT_DATA, some [123, 125],
        [Call.TSIOBufferCreate, Call.TSIOBufferReaderAlloc,
         Call.json_tokener_parse_ex [123, 125],
         Call.TSContCall TS_EVENT_VCONN_WRITE_COMPLETE]) := by
  decide

/-- C4.  With no downstream VIO and the output buffer and its reader present,
`handle_output` appends the serialization of the parsed value to the buffer and
issues one `TSVConnWrite` for everything the reader has available, returning 1;
and on every session reached from `jcrusher_transform_add` that is in
`STATE_OUTPUT_DATA` without a downstream VIO, the buffer was empty, so the
buffer becomes the serialization, the length of the write is the length of the
serialization and the bytes offered are the serialization. -/
theorem output_step_writes_serialization (J : JsonC Tok Obj) :
    (∀ (d : JCrusherData Tok Obj) (buf : List Nat) (pos : Nat),
      d.state = STATE_OUTPUT_DATA → d.downstream_vio = none →
      d.downstream_buffer = some buf → d.downstream_reader = some pos →
      handle_output J d = some (1,
        { d with
          downstream_buffer := some (buf ++ serialization J d.json_obj)
          downstream_vio := some
            { nbytes := ((buf ++ serialization J d.json_obj).length : Int) - (pos : Int) } },
        [Call.TSIOBufferWrite (serialization J d.json_obj),
         Call.TSVConnWrite (((buf ++ serialization J d.json_obj).length : Int) - (pos : Int))
           ((buf ++ serialization J d.json_obj).drop pos)])) ∧
    (∀ (es : List Delivery) (c : TSCont Tok Obj) (d : JCrusherData Tok Obj),
      run J (jcrusher_transform_add J) es = some c → c.data = some d →
      d.state = STATE_OUTPUT_DATA → d.downstream_vio = none →
      handle_output J d = some (1,
        { d with
          downstream_buffer := some (serialization J d.json_obj)
          downstream_vio := some { nbytes := ((serialization J d.json_obj).length : Int) } },
        [Call.TSIOBufferWrite (serialization J d.json_obj),
         Call.TSVConnWrite ((serialization J d.json_obj).length : Int)
           (serialization J d.json_obj)])) := by
  have part1 : ∀ (d : JCrusherData Tok Obj) (buf : List Nat) (pos : Nat),
      d.downstream_vio = none →
      d.downstream_buffer = some buf → d.downstream_reader = some pos →
      handle_output J d = some (1,
        { d with
          downstream_buffer := some (buf ++ serialization J d.json_obj)
          downstream_vio := some
            { nbytes := ((buf ++ serialization J d.json_obj).length : Int) - (pos : Int) } },
        [Call.TSIOBufferWrite (serialization J d.json_obj),
         Call.TSVConnWrite (((buf ++ serialization J d.json_obj).length : Int) - (pos : Int))
           ((buf ++ serialization J d.json_obj).drop pos)]) := by
    intro d buf pos hv hb hr
    simp only [handle_output, hv, hb, hr, serialization]
  refine ⟨fun d buf pos _ hv hb hr => part1 d buf pos hv hb hr, ?_⟩
  intro es c d hrun hc hs hv
  obtain ⟨_, _, hinv⟩ := inv_run J es _ c (inv_add J) hrun
  obtain ⟨i1, i2, i3, _, _⟩ := hinv d hc
  have hbuf : d.downstream_buffer = some [] := by
    rcases (i1 hv).2 with h | h
    · exact absurd h (i3 hs)
    · exact h
  have hrd : d.downstream_reader = some 0 := i2 (i3 hs)
  have := part1 d [] 0 hv hbuf hrd
  simpa using this

theorem output_step_writes_serialization_witness :
    run toyJson (jcrusher_transform_add toyJson) three_chunks =
        some { data := some after_three_chunks, destroyed := false,
               calls := calls_three_chunks } ∧
    serialization toyJson after_three_chunks.json_obj = compact_text ∧
    handle_output toyJson after_three_chunks = some (1,
        { after_three_chunks with
          downstream_buffer := some (serialization toyJson after_three_chunks.json_obj)
          downstream_vio := some
            { nbytes := ((serialization toyJson after_three_chunks.json_obj).length : Int) } },
        [Call.TSIOBufferWrite (serialization toyJson after_three_chunks.json_obj),
         Call.TSVConnWrite ((serialization toyJson after_three_chunks.json_obj).length : Int)
           (serialization toyJson after_three_chunks.json_obj)]) := by
  have hrun : run toyJson (jcrusher_transform_add toyJson) three_chunks =
      some { data := some after_three_chunks, destroyed := false,
             calls := calls_three_chunks } := by
    simp only [run, dispatch, jcrusher_transform, jcrusher_handle_transform,
      transform_loop_eq, write_ready, jcrusher_transform_add, three_chunks]
    decide
  exact ⟨hrun, by decide,
    (output_step_writes_serialization toyJson).2 three_chunks _ after_three_chunks
      hrun rfl rfl rfl⟩

/-- C5 (the code departs from the claim).  A span of 3 bytes whose second byte is
zero: the tokener is handed `strlen (input)` = 1 byte, while 3 bytes are
consumed from the reader and accounted, so the two bytes after the first are
never fed.  And a span of 1 byte that is followed in memory by a non-zero byte:
the tokener is handed 2 bytes, one of which the source never delivered. -/
theorem bytes_after_zero_are_lost :
    (handle_buffering toyJson (chunk [123, 0, 125] 3 0) (jcrusher_data_alloc toyJson)).map
        (fun r => r.2.2) =
      some [Call.TSIOBufferCreate, Call.TSIOBufferReaderAlloc,
         Call.json_tokener_parse_ex [123],
         Call.TSIOBufferReaderConsume 3, Call.TSVIONDoneSet 3,
         Call.TSContCall TS_EVENT_VCONN_WRITE_READY] ∧
    (handle_buffering toyJson
        { buffer := true, ntodo := 2, ndone := 0, reader_avail := 1,
          block := some { read_avail := 1, mem := [123, 125, 0] } }
        (jcrusher_data_alloc toyJson)).map (fun r => r.2.2) =
      some [Call.TSIOBufferCreate, Call.TSIOBufferReaderAlloc,
         Call.json_tokener_parse_ex [123, 125],
         Call.TSContCall TS_EVENT_VCONN_WRITE_COMPLETE] := by
  decide

/-- C6, as stated, fails: the span `{}` completes a value, the invocation of
`jcrusher_handle_transform` moves the state from `STATE_BUFFER_DATA` to
`STATE_OUTPUT_DATA` and returns without running `handle_output`: nothing is
written to the output buffer, no `TSVConnWrite` is issued and no downstream VIO
exists on return. -/
theorem transition_without_output_step :
    (jcrusher_handle_transform toyJson (chunk [123, 125] 2 0)
        (jcrusher_transform_add toyJson)).map
        (fun c => (c.data.map (fun d => (d.state, d.downstream_vio, d.downstream_buffer)),
          c.calls)) =
      some (some (STATE_OUTPUT_DATA, none, some []),
        [Call.TSIOBufferCreate, Call.TSIOBufferReaderAlloc,
         Call.json_tokener_parse_ex [123, 125],
         Call.TSContCall TS_EVENT_VCONN_WRITE_COMPLETE]) := by
  simp only [jcrusher_handle_transform, transform_loop_eq, jcrusher_transform_add]
  rfl

/-- C6 (amended).  On a session reached from `jcrusher_transform_add` that is in
`STATE_BUFFER_DATA`: if the source buffer is absent, the invocation of
`jcrusher_handle_transform` sets `STATE_OUTPUT_DATA` and also runs
`handle_output`, so one `TSVConnWrite` has been issued and the downstream VIO
exists on return; if the source buffer is present and either nothing is left to
do or the tokener reports success on the span, the invocation sets
`STATE_OUTPUT_DATA` and returns with no `TSVConnWrite` issued and no downstream
VIO. -/
theorem output_step_only_after_shutdown (J : JsonC Tok Obj) (up : UpstreamVIO)
    (es : List Delivery) (c : TSCont Tok Obj) (d : JCrusherData Tok Obj)
    (hrun : run J (jcrusher_transform_add J) es = some c) (hc : c.data = some d)
    (hs : d.state = STATE_BUFFER_DATA) :
    (up.buffer = false →
      ∃ c1 d1, jcrusher_handle_transform J up c = some c1 ∧ c1.data = some d1 ∧
        d1.state = STATE_OUTPUT_DATA ∧ d1.downstream_vio ≠ none ∧
        writes c.calls = 0 ∧ writes c1.calls = 1) ∧
    (up.buffer = true →
      (up.ntodo ≤ 0 ∨
        ∃ blk tok, 0 < up.ntodo ∧ up.block = some blk ∧ d.json_tok = some tok ∧
          J.json_tokener_get_error
            (J.json_tokener_parse_ex tok (blk.mem.take (strlen blk.mem))).1 =
              json_tokener_success) →
      ∃ c1 d1, jcrusher_handle_transform J up c = some c1 ∧ c1.data = some d1 ∧
        d1.state = STATE_OUTPUT_DATA ∧ d1.downstream_vio = none ∧
        writes c1.calls = 0) := by
  obtain ⟨_, _, hinv⟩ := inv_run J es _ c (inv_add J) hrun
  obtain ⟨i1, i2, _, i4, _⟩ := hinv d hc
  have hvio : d.downstream_vio = none := by
    by_contra hne
    have := i4 hne
    rw [hs] at this
    exact absurd this (by decide)
  obtain ⟨hw, hbuf⟩ := i1 hvio
  constructor
  · intro hb
    unfold jcrusher_handle_transform
    simp only [hc, transform_loop_eq, switch_state, hs, if_true, handle_buffering, hb]
    rcases hbuf with hn | hn
    · simp [hn, handle_output, hvio, writes_append, hw, writes_cons, writes_nil,
        Call.isVConnWrite]
    · have hr := i2 (by rw [hn]; simp)
      simp [hn, hr, handle_output, hvio, writes_append, hw, writes_cons, writes_nil,
        Call.isVConnWrite]
  · intro hb hcase
    unfold jcrusher_handle_transform
    simp only [hc, transform_loop_eq, switch_state, hs, if_true, handle_buffering, hb]
    rcases hcase with h0 | ⟨blk, tok, hpos, hblk, htok, herr⟩
    · have hn0 : ¬ up.ntodo > 0 := not_lt.mpr h0
      rcases hbuf with hn | hn <;>
        simp [hn, hn0, hvio, writes_append, hw, writes_cons, writes_nil, Call.isVConnWrite]
    · rcases hbuf with hn | hn <;>
        simp [hn, hpos, hblk, htok, herr, TSIOBufferBlockReadStart, hvio, writes_append, hw,
          writes_cons, writes_nil, Call.isVConnWrite]

theorem output_step_only_after_shutdown_witness :
    (∃ c1 d1, jcrusher_handle_transform toyJson (shutdown 0) (jcrusher_transform_add toyJson)
          = some c1 ∧ c1.data = some d1 ∧
        d1.state = STATE_OUTPUT_DATA ∧ d1.downstream_vio ≠ none ∧
        writes (jcrusher_transform_add toyJson).calls = 0 ∧ writes c1.calls = 1) ∧
    (∃ c1 d1, jcrusher_handle_transform toyJson (chunk [123, 125] 2 0)
          (jcrusher_transform_add toyJson) = some c1 ∧ c1.data = some d1 ∧
        d1.state = STATE_OUTPUT_DATA ∧ d1.downstream_vio = none ∧
        writes c1.calls = 0) :=
  ⟨(output_step_only_after_shutdown toyJson (shutdown 0) [] (jcrusher_transform_add toyJson)
      (jcrusher_data_alloc toyJson) rfl rfl rfl).1 rfl,
   (output_step_only_after_shutdown toyJson (chunk [123, 125] 2 0) []
      (jcrusher_transform_add toyJson) (jcrusher_data_alloc toyJson) rfl rfl rfl).2 rfl
      (Or.inr ⟨{ read_avail := 2, mem := [123, 125, 0] }, toyJson.json_tokener_new,
        by decide, rfl, rfl, by decide⟩)⟩

/-- C7, as stated, fails: the source reports nothing left to do before any span
was parsed; the state is `STATE_OUTPUT_DATA` while the parsed value is absent. -/
theorem output_state_without_value :
    (run toyJson (jcrusher_transform_add toyJson) [write_ready (drained 0 0)]).map
        (fun c => c.data.map (fun d => (d.state, d.json_obj))) =
      some (some (STATE_OUTPUT_DATA, none)) := by
  simp only [run, dispatch, jcrusher_transform, jcrusher_handle_transform,
    transform_loop_eq, write_ready, jcrusher_transform_add]
  rfl

/-- C7 (amended).  With a tokener that returns a value only when it reports
success, in every session state reached from `jcrusher_transform_add` a parsed
value that is present implies `STATE_OUTPUT_DATA`.  (The converse is what
fails.) -/
theorem parsed_value_implies_output (J : JsonC Tok Obj)
    (hJ : ∀ t bs, (J.json_tokener_parse_ex t bs).2 ≠ none →
      J.json_tokener_get_error (J.json_tokener_parse_ex t bs).1 = json_tokener_success)
    (es : List Delivery) (c : TSCont Tok Obj) (d : JCrusherData Tok Obj)
    (hrun : run J (jcrusher_transform_add J) es = some c) (hc : c.data = some d)
    (hobj : d.json_obj ≠ none) : d.state = STATE_OUTPUT_DATA := by
  refine run_data_pred J (fun d => d.json_obj ≠ none → d.state = STATE_OUTPUT_DATA)
    (fun h => absurd rfl h) ?_ ?_ es (jcrusher_transform_add J) c ?_ hrun d hc hobj
  · intro up d0 r d1 cs _ h
    exact buffering_keeps_value_in_output J hJ up d0 d1 r cs h
  · intro d0 r d1 cs hP h hne
    obtain ⟨_, h1, h2, _⟩ := handle_output_some J d0 d1 r cs h
    rw [h1]; rw [h2] at hne; exact hP hne
  · intro d0 hd0 hne
    simp only [jcrusher_transform_add, Option.some.injEq] at hd0
    subst hd0
    exact absurd rfl hne

theorem parsed_value_implies_output_witness :
    after_three_chunks.json_obj ≠ none ∧ after_three_chunks.state = STATE_OUTPUT_DATA :=
  ⟨by decide,
   parsed_value_implies_output toyJson toyJson_value_only_on_success three_chunks
    { data := some after_three_chunks, destroyed := false, calls := calls_three_chunks }
    after_three_chunks
    (by
      simp only [run, dispatch, jcrusher_transform, jcrusher_handle_transform,
        transform_loop_eq, write_ready, jcrusher_transform_add, three_chunks]
      decide)
    rfl (by decide)⟩

/-- C8.  On every run from `jcrusher_transform_add` the log holds at most one
`TSVConnWrite`; and `handle_output` on a record whose downstream VIO is set
returns the record unchanged with no call made. -/
theorem at_most_one_downstream_write (J : JsonC Tok Obj) :
    (∀ (es : List Delivery) (c : TSCont Tok Obj),
      run J (jcrusher_transform_add J) es = some c → writes c.calls ≤ 1) ∧
    (∀ (d : JCrusherData Tok Obj) (v : DownstreamVIO),
      d.downstream_vio = some v → handle_output J d = some (1, d, [])) := by
  constructor
  · intro es c hrun
    exact (inv_run J es _ c (inv_add J) hrun).1
  · intro d v hv
    simp [handle_output, hv]

theorem at_most_one_downstream_write_witness :
    run toyJson (jcrusher_transform_add toyJson)
        (three_chunks ++ [immediate (drained 0 21), immediate (drained 0 21),
          write_ready (shutdown 21)]) =
      some { data := some { after_three_chunks with
                            downstream_buffer := some compact_text
                            downstream_vio := some { nbytes := 17 } },
             destroyed := false,
             calls := calls_three_chunks ++
               [Call.TSIOBufferWrite compact_text, Call.TSVConnWrite 17 compact_text] } ∧
    writes (calls_three_chunks ++
        [Call.TSIOBufferWrite compact_text, Call.TSVConnWrite 17 compact_text]) ≤ 1 := by
  have hrun : run toyJson (jcrusher_transform_add toyJson)
      (three_chunks ++ [immediate (drained 0 21), immediate (drained 0 21),
        write_ready (shutdown 21)]) =
      some { data := some { after_three_chunks with
                            downstream_buffer := some compact_text
                            downstream_vio := some { nbytes := 17 } },
             destroyed := false,
             calls := calls_three_chunks ++
               [Call.TSIOBufferWrite compact_text, Call.TSVConnWrite 17 compact_text] } := by
    simp only [run, dispatch, jcrusher_transform, jcrusher_handle_transform,
      transform_loop_eq, write_ready, immediate, jcrusher_transform_add, three_chunks,
      List.cons_append, List.nil_append]
    decide
  exact ⟨hrun, (at_most_one_downstream_write toyJson).1 _ _ hrun⟩

/-- C9.  Along every sequence of deliveries, from any continuation, the value of
`state` steps from `STATE_BUFFER_DATA` to `STATE_OUTPUT_DATA` at most once and
never from `STATE_OUTPUT_DATA` to `STATE_BUFFER_DATA`. -/
theorem single_one_way_transition (J : JsonC Tok Obj) (c : TSCont Tok Obj)
    (es : List Delivery) :
    changes STATE_BUFFER_DATA STATE_OUTPUT_DATA (history J c es) ≤ 1 ∧
    changes STATE_OUTPUT_DATA STATE_BUFFER_DATA (history J c es) = 0 :=
  ⟨changes_forward_le_one _ (history_chain J es c), changes_back_zero _ (history_chain J es c)⟩

/-- C10.  `jcrusher_data_destroy` on a record calls `TSIOBufferDestroy`,
`json_object_put` and `json_tokener_free` once each for the resource that is
present and not at all for one that is absent, whatever the state; on an absent
record it makes no call; and a delivery to a closed transformation makes
exactly these calls followed by `TSContDestroy`. -/
theorem destroy_releases_each_once (J : JsonC Tok Obj) (d : JCrusherData Tok Obj) :
    (jcrusher_data_destroy (some d)).count Call.TSIOBufferDestroy =
        (if d.downstream_buffer.isSome then 1 else 0) ∧
    (jcrusher_data_destroy (some d)).count Call.json_object_put =
        (if d.json_obj.isSome then 1 else 0) ∧
    (jcrusher_data_destroy (some d)).count Call.json_tokener_free =
        (if d.json_tok.isSome then 1 else 0) ∧
    (jcrusher_data_destroy (some d)).count Call.TSfree = 1 ∧
    jcrusher_data_destroy (none : Option (JCrusherData Tok Obj)) = [] ∧
    (∀ (up : UpstreamVIO) (c : TSCont Tok Obj) (event : TSEvent),
      jcrusher_transform J true up c event =
        some { data := none, destroyed := true,
               calls := c.calls ++ jcrusher_data_destroy c.data ++ [Call.TSContDestroy] }) := by
  obtain ⟨st, vio, buf, rd, err, obj, tok⟩ := d
  refine ⟨?_, ?_, ?_, ?_, rfl, fun up c event => by simp [jcrusher_transform]⟩
  all_goals cases buf <;> cases obj <;> cases tok <;> simp [jcrusher_data_destroy]

/-- C11 (the code departs from the claim).  The source has 10 bytes left to do
and 8 bytes available, the first 5 of them in the current block; the tokener
needs more input.  `handle_buffering` computes `toread` = min (10, 8) = 8 and
then hands `&toread` to `TSIOBufferBlockReadStart`, which stores the readable
size of the block in it: 5 bytes are consumed and accounted, not 8.  Likewise
with 3 bytes left to do and a block of 10: 10 bytes are consumed and accounted,
more than were left.  The state stays `STATE_BUFFER_DATA`, `1` is returned and
`TS_EVENT_VCONN_WRITE_READY` is signalled once in both. -/
theorem consumed_length_is_block_size :
    (handle_buffering toyJson
        { buffer := true, ntodo := 10, ndone := 0, reader_avail := 8,
          block := some { read_avail := 5, mem := [123, 34, 97, 34, 58, 0] } }
        (jcrusher_data_alloc toyJson)).map (fun r => (r.1, r.2.1.state, r.2.2)) =
      some (1, STATE_BUFFER_DATA,
        [Call.TSIOBufferCreate, Call.TSIOBufferReaderAlloc,
         Call.json_tokener_parse_ex [123, 34, 97, 34, 58],
         Call.TSIOBufferReaderConsume 5, Call.TSVIONDoneSet 5,
         Call.TSContCall TS_EVENT_VCONN_WRITE_READY]) ∧
    (handle_buffering toyJson
        { buffer := true, ntodo := 3, ndone := 0, reader_avail := 10,
          block := some { read_avail := 10,
                          mem := [123, 34, 97, 34, 58, 91, 49, 44, 50, 44, 0] } }
        (jcrusher_data_alloc toyJson)).map (fun r => (r.1, r.2.1.state, r.2.2)) =
      some (1, STATE_BUFFER_DATA,
        [Call.TSIOBufferCreate, Call.TSIOBufferReaderAlloc,
         Call.json_tokener_parse_ex [123, 34, 97, 34, 58, 91, 49, 44, 50, 44],
         Call.TSIOBufferReaderConsume 10, Call.TSVIONDoneSet 10,
         Call.TSContCall TS_EVENT_VCONN_WRITE_READY]) := by
  decide

/-- C13.  For a continuation whose record is in `STATE_OUTPUT_DATA`: what a
delivery does is independent of everything the upstream VIO answers, and along
every sequence of deliveries the calls added to the log contain no
`json_tokener_parse_ex`, no `TSIOBufferReaderConsume`, no `TSVIONDoneSet` and no
`TS_EVENT_VCONN_WRITE_READY` or `TS_EVENT_VCONN_WRITE_COMPLETE` to the source. -/
theorem no_input_after_transition (J : JsonC Tok Obj) (c : TSCont Tok Obj)
    (d : JCrusherData Tok Obj) (hc : c.data = some d) (hs : d.state = STATE_OUTPUT_DATA) :
    (∀ (e : Delivery) (up1 : UpstreamVIO),
      dispatch J c e = dispatch J c { e with up := up1 }) ∧
    (∀ (es : List Delivery) (c1 : TSCont Tok Obj), run J c es = some c1 →
      ∃ cs, c1.calls = c.calls ++ cs ∧ ∀ call ∈ cs, call.isInput = false) := by
  constructor
  · intro e up1
    have hnb : ¬ d.state = STATE_BUFFER_DATA := by rw [hs]; decide
    have hloop : ∀ up, transform_loop J up d =
        transform_loop J up1 d := by
      intro up
      simp only [transform_loop_eq, switch_state, if_neg hnb, if_pos hs]
    simp only [dispatch, jcrusher_transform, jcrusher_handle_transform, hc, hloop e.up]
  · intro es
    have key : ∀ (es : List Delivery) (c0 c1 : TSCont Tok Obj),
        ((∃ d, c0.data = some d ∧ d.state = STATE_OUTPUT_DATA) ∨
          (c0.data = none ∧ c0.destroyed = true)) →
        run J c0 es = some c1 →
        ∃ cs, c1.calls = c0.calls ++ cs ∧ ∀ call ∈ cs, call.isInput = false := by
      intro es
      induction es with
      | nil =>
        intro c0 c1 _ h
        simp only [run, Option.some.injEq] at h
        subst h
        exact ⟨[], by simp, by simp⟩
      | cons e es ih =>
        intro c0 c1 h0 h
        simp only [run] at h
        cases hd : dispatch J c0 e with
        | none => simp [hd] at h
        | some c2 =>
          simp only [hd] at h
          obtain ⟨h2, cs1, e1, n1⟩ := output_state_step J c0 c2 e h0 hd
          obtain ⟨cs2, e2, n2⟩ := ih c2 c1 h2 h
          refine ⟨cs1 ++ cs2, by rw [e2, e1, List.append_assoc], ?_⟩
          intro call hmem
          rcases List.mem_append.mp hmem with hm | hm
          · exact n1 call hm
          · exact n2 call hm
    intro c1 hrun
    exact key es c c1 (Or.inl ⟨d, hc, hs⟩) hrun

theorem no_input_after_transition_witness :
    dispatch toyJson { data := some after_three_chunks, destroyed := false,
                       calls := calls_three_chunks }
        (write_ready (chunk [32, 123, 125] 3 21)) =
      dispatch toyJson { data := some after_three_chunks, destroyed := false,
                         calls := calls_three_chunks }
        { write_ready (chunk [32, 123, 125] 3 21) with up := shutdown 21 } :=
  (no_input_after_transition toyJson
    { data := some after_three_chunks, destroyed := false, calls := calls_three_chunks }
    after_three_chunks rfl rfl).1 (write_ready (chunk [32, 123, 125] 3 21)) (shutdown 21)

/-- C14.  Whatever the event and the record, `jcrusher_transform` on a closed
transformation ends with the record gone and the continuation destroyed, and
every call it makes is one of the release calls (`TSIOBufferDestroy`,
`json_object_put`, `json_tokener_free`, `TSfree`, `TSContDestroy`), with
`TSContDestroy` the last: no `TSContCall`, no `TSVConnWrite`, no
`TSVConnShutdown`, no buffering or output step. -/
theorem closed_only_releases (J : JsonC Tok Obj) (up : UpstreamVIO) (c : TSCont Tok Obj)
    (event : TSEvent) :
    ∃ cs, jcrusher_transform J true up c event =
        some { data := none, destroyed := true, calls := c.calls ++ (cs ++ [Call.TSContDestroy]) } ∧
      cs = jcrusher_data_destroy c.data ∧
      (∀ call ∈ cs ++ [Call.TSContDestroy], call.isRelease = true) ∧
      (cs ++ [Call.TSContDestroy]).count Call.TSContDestroy = 1 := by
  refine ⟨jcrusher_data_destroy c.data, by simp [jcrusher_transform], rfl,
    destroy_all_release c.data, ?_⟩
  cases hdata : c.data with
  | none => simp [jcrusher_data_destroy]
  | some d =>
    obtain ⟨st, vio, buf, rd, err, obj, tok⟩ := d
    cases buf <;> cases obj <;> cases tok <;> simp [jcrusher_data_destroy]

/-- C15 (the code departs from the claim).  A 200 response whose Content-Type is
application/json-seq, a different media type, is answered with 1: only the
first 16 characters of the value are compared, and the length of the value,
`val_length`, is fetched and never used. -/
theorem json_seq_is_transformable :
    jcrusher_transformable (server_txn 200 json_seq_value) 1 = 1 ∧
    media_type json_seq_value =
      [97, 112, 112, 108, 105, 99, 97, 116, 105, 111, 110, 47, 106, 115, 111, 110,
       45, 115, 101, 113] ∧
    media_type json_seq_value ≠ application_json := by
  decide

/-- What `jcrusher_transformable` computes: 1 exactly when the status of the
header it reads (server response if `server` is non-zero, else cached
response) is 200 and the Content-Type field is present with a first value whose
first 16 characters, in lower case, are the text application/json; 0
otherwise, in particular for every other status and for a missing field. -/
theorem transformable_iff_json_start (txnp : TSHttpTxn) (server : Int) :
    (jcrusher_transformable txnp server = 1 ↔
      (if server ≠ 0 then txnp.server_resp else txnp.cached_resp).status = 200 ∧
      ∃ v, (if server ≠ 0 then txnp.server_resp else txnp.cached_resp).content_type =
          some (some v) ∧
        (v.take 16).map tolower = application_json) ∧
    (jcrusher_transformable txnp server = 0 ∨ jcrusher_transformable txnp server = 1) ∧
    ((if server ≠ 0 then txnp.server_resp else txnp.cached_resp).status ≠ 200 →
      jcrusher_transformable txnp server = 0) ∧
    ((if server ≠ 0 then txnp.server_resp else txnp.cached_resp).content_type = none →
      jcrusher_transformable txnp server = 0) := by
  have hcmp : ∀ v : List Nat,
      strncasecmp v (application_json ++ [0]) application_json.length = 0 ↔
        (v.take 16).map tolower = application_json :=
    fun v => strncasecmp_eq_zero application_json application_json_lower v [0]
  unfold jcrusher_transformable
  simp only
  generalize (if server ≠ 0 then txnp.server_resp else txnp.cached_resp) = hdr
  obtain ⟨status, ct⟩ := hdr
  simp only
  by_cases hst : status = 200
  · simp only [hst, not_true_eq_false, if_false, true_and, ne_eq, false_implies]
    rcases ct with _ | _ | v
    · simp
    · simp
    · by_cases hv : strncasecmp v (application_json ++ [0]) application_json.length = 0
      · simp only [hv, if_true, Option.some.injEq, exists_eq_left', true_iff, or_true,
          true_and]
        exact ⟨(hcmp v).mp hv, by simp⟩
      · have hv2 : ¬ (v.take 16).map tolower = application_json :=
          fun h => hv ((hcmp v).mpr h)
        simp only [hv, if_false, Option.some.injEq, exists_eq_left', hv2, or_false,
          true_and]
        exact ⟨by simp, by simp⟩
  · simp [hst]

/-- Instances of `transformable_iff_json_start`: a 200 server response with the
value `Application/JSON; charset=utf-8` is accepted, a 204 is not, and the
cached response (a 404) is not. -/
theorem transformable_iff_json_start_instances :
    jcrusher_transformable (server_txn 200 json_charset_value) 1 = 1 ∧
    jcrusher_transformable (server_txn 204 json_charset_value) 1 = 0 ∧
    jcrusher_transformable (server_txn 200 json_charset_value) 0 = 0 :=
  ⟨(transformable_iff_json_start (server_txn 200 json_charset_value) 1).1.mpr
      ⟨rfl, json_charset_value, rfl, by decide⟩,
   (transformable_iff_json_start (server_txn 204 json_charset_value) 1).2.2.1 (by decide),
   (transformable_iff_json_start (server_txn 200 json_charset_value) 0).2.2.1 (by decide)⟩

/-- C16.  For every record and every answer of the source and the tokener, the
loop of `jcrusher_handle_transform` is over after at most two passes through
the `switch`: `handle_buffering` returns 0 only with the state set to
`STATE_OUTPUT_DATA`, and `handle_output` only returns 1.  With something left to
do and a span of length zero, `handle_buffering` returns 1 and the loop is over
after that one pass. -/
theorem loop_ends_within_two_steps (J : JsonC Tok Obj) (up : UpstreamVIO)
    (d : JCrusherData Tok Obj) :
    transform_loop_bounded J up 2 d = some (transform_loop J up d) ∧
    (∀ r d1 cs, handle_buffering J up d = some (r, d1, cs) → r = 0 →
      d1.state = STATE_OUTPUT_DATA) ∧
    (∀ r d1 cs, handle_output J d = some (r, d1, cs) → r = 1) ∧
    (∀ blk tok, d.state = STATE_BUFFER_DATA → up.buffer = true → 0 < up.ntodo →
      up.block = some blk → blk.read_avail = 0 → d.json_tok = some tok →
      ∃ d1 cs, handle_buffering J up d = some (1, d1, cs) ∧
        transform_loop_bounded J up 1 d = some (some (d1, cs))) := by
  refine ⟨transform_loop_bounded_two J up d,
    fun r d1 cs h hr => (handle_buffering_some J up d d1 r cs h).1 hr,
    fun r d1 cs h => (handle_output_some J d d1 r cs h).1, ?_⟩
  intro blk tok hs hb hn hblk _ htok
  have hstep : ∃ d1 cs, handle_buffering J up d = some (1, d1, cs) := by
    simp only [handle_buffering, hb, hn, hblk, TSIOBufferBlockReadStart]
    cases hbuf : d.downstream_buffer <;>
      by_cases herr : json_tokener_success = J.json_tokener_get_error
        (J.json_tokener_parse_ex tok (blk.mem.take (strlen blk.mem))).1 <;>
      simp [htok, herr]
  obtain ⟨d1, cs, h1⟩ := hstep
  refine ⟨d1, cs, h1, ?_⟩
  simp [transform_loop_bounded, switch_state, hs, h1]

theorem loop_ends_within_two_steps_witness :
    ∃ d1 cs, handle_buffering toyJson
        { buffer := true, ntodo := 4, ndone := 0, reader_avail := 0,
          block := some { read_avail := 0, mem := [0] } }
        (jcrusher_data_alloc toyJson) = some (1, d1, cs) ∧
      transform_loop_bounded toyJson
        { buffer := true, ntodo := 4, ndone := 0, reader_avail := 0,
          block := some { read_avail := 0, mem := [0] } }
        1 (jcrusher_data_alloc toyJson) = some (some (d1, cs)) :=
  (loop_ends_within_two_steps toyJson
    { buffer := true, ntodo := 4, ndone := 0, reader_avail := 0,
      block := some { read_avail := 0, mem := [0] } }
    (jcrusher_data_alloc toyJson)).2.2.2
    { read_avail := 0, mem := [0] } toyJson.json_tokener_new
    rfl rfl (by decide) rfl rfl rfl

/-- C17.  In every session state reached from `jcrusher_transform_add`, when the
state is `STATE_OUTPUT_DATA` the output buffer and its reader are present, and
`handle_output` does not abort. -/
theorem output_buffer_present (J : JsonC Tok Obj) (es : List Delivery)
    (c : TSCont Tok Obj) (d : JCrusherData Tok Obj)
    (hrun : run J (jcrusher_transform_add J) es = some c) (hc : c.data = some d)
    (hs : d.state = STATE_OUTPUT_DATA) :
    d.downstream_buffer ≠ none ∧ d.downstream_reader ≠ none ∧ handle_output J d ≠ none := by
  obtain ⟨_, _, hinv⟩ := inv_run J es _ c (inv_add J) hrun
  obtain ⟨_, i2, i3, _, _⟩ := hinv d hc
  have hb := i3 hs
  have hr := i2 hb
  refine ⟨hb, by rw [hr]; simp, ?_⟩
  obtain ⟨buf, hbuf⟩ := Option.ne_none_iff_exists'.mp hb
  unfold handle_output
  cases hv : d.downstream_vio <;> simp [hbuf, hr]

theorem output_buffer_present_witness :
    after_three_chunks.downstream_buffer ≠ none ∧
    after_three_chunks.downstream_reader ≠ none ∧
    handle_output toyJson after_three_chunks ≠ none :=
  output_buffer_present toyJson three_chunks
    { data := some after_three_chunks, destroyed := false, calls := calls_three_chunks }
    after_three_chunks
    (by
      simp only [run, dispatch, jcrusher_transform, jcrusher_handle_transform,
        transform_loop_eq, write_ready, jcrusher_transform_add, three_chunks]
      decide)
    rfl rfl

end JCrusher
